
import Mathlib

/-!
# SoundScope: the analysis and rendering pipeline of `script.js`

A shallow embedding of `src/script.js` and proofs about it.

Conventions of the embedding

* JavaScript numbers are exact rationals (`ℚ`).  A value that is `NaN` in the
  script (arithmetic on an array element that does not exist, a control value
  that does not parse) is `none` of an `Option`.
* The module-level variables of the script (`audioCtx`, `analyser`, `source`,
  `dataArray`, `frameId`, `animationMode`) and the properties of the page the
  script reads or writes are the fields of `State`.
* A handler returns an `Outcome`: the state it leaves behind and the exception
  that escaped it, if any.  A JavaScript exception does not roll anything back,
  so the state of an `Outcome` with an error is the state at the throw.
* The browser is the environment.  What the script relies on is stated in the
  definitions marked "Platform": the Web Audio `AnalyserNode`
  (`fftSize`, `smoothingTimeConstant`, `frequencyBinCount`, the two
  `getByte...Data` calls) and the animation-frame scheduler
  (`requestAnimationFrame`, `cancelAnimationFrame`).
* Not embedded: text labels (formatted times, value read-outs), the CSS classes
  of the mode buttons and of the overlay, the download link, the enabled state
  of the play button, the backing-store size of the canvas and the
  suspended/running state of the audio context.
-/

namespace SoundScope

/-! ## Canvas -/

/-- Colours handed to the 2D context. -/
inductive Colour where
  | hex (code : String)
  | rgba (r g b : Nat) (alpha : ℚ)
  | hsl (hue saturation : ℚ) (lightness : Option ℚ)
  deriving DecidableEq, Repr

/-- Result of `ctx.createLinearGradient(x0, y0, x1, y1)` with its colour stops. -/
structure Gradient where
  x0 : ℚ
  y0 : Option ℚ
  x1 : ℚ
  y1 : ℚ
  stops : List (ℚ × Colour)
  deriving DecidableEq, Repr

/-- Value of `fillStyle` / `strokeStyle`. -/
inductive Style where
  | colour (c : Colour)
  | gradient (g : Gradient)
  deriving DecidableEq, Repr

/-- Calls on the 2D context, in the order the script issues them. -/
inductive CanvasOp where
  | clearRect (x y w h : ℚ)
  | setFillStyle (style : Style)
  | fillRect (x : ℚ) (y : Option ℚ) (w : ℚ) (h : Option ℚ)
  | setLineWidth (w : ℚ)
  | setStrokeStyle (style : Style)
  | beginPath
  | moveTo (x : ℚ) (y : Option ℚ)
  | lineTo (x : ℚ) (y : Option ℚ)
  | stroke
  deriving DecidableEq, Repr

/-! ## Drawing loops -/

/-- The vertical coordinate of sample `i` in `drawWaveform` (lines 118-119):
`v = dataArray[i] / 128.0`, `y = height / 2 + (v - 1) * (height / 2) * sensitivity`.
An index outside the array gives `none` (`NaN`). -/
def waveformY (height sensitivity : ℚ) (dataArray : List Nat) (i : Nat) : Option ℚ :=
  (dataArray[i]?).map fun (d : Nat) =>
    let v : ℚ := (d : ℚ) / 128
    height / 2 + (v - 1) * (height / 2) * sensitivity

/-- The `for` loop of `drawWaveform` (lines 117-126), started at index `i` with
`remaining` iterations to go and the running abscissa `x`. -/
def waveformLoop (height sensitivity sliceWidth : ℚ) (dataArray : List Nat) :
    (remaining : Nat) → (i : Nat) → (x : ℚ) → List CanvasOp
  | 0, _, _ => []
  | remaining + 1, i, x =>
    let y := waveformY height sensitivity dataArray i
    (if i = 0 then CanvasOp.moveTo x y else CanvasOp.lineTo x y) ::
      waveformLoop height sensitivity sliceWidth dataArray remaining (i + 1) (x + sliceWidth)

/-- Lines 113-128 of `drawWaveform`: the points of the path, the closing
`lineTo(width, height / 2)` included. -/
def waveformPath (width height sensitivity : ℚ) (bufferLength : Nat)
    (dataArray : List Nat) : List CanvasOp :=
  let sliceWidth : ℚ := width / (bufferLength : ℚ)
  waveformLoop height sensitivity sliceWidth dataArray bufferLength 0 0 ++
    [CanvasOp.lineTo width (some (height / 2))]

/-- The value `barHeight` of bar `i` in `drawSpectrum` (line 149):
`(dataArray[i] / 255) * height * sensitivity`. -/
def barHeight (height sensitivity : ℚ) (dataArray : List Nat) (i : Nat) : Option ℚ :=
  (dataArray[i]?).map fun (d : Nat) => ((d : ℚ) / 255) * height * sensitivity

/-- The gradient of bar `i` in `drawSpectrum` (lines 150-156). -/
def barGradient (height sensitivity : ℚ) (bars : Nat) (dataArray : List Nat)
    (i : Nat) (x : ℚ) : Gradient :=
  let bh := barHeight height sensitivity dataArray i
  let hue : ℚ := (i : ℚ) * (250 / (bars : ℚ)) + 200
  let saturation : ℚ := 80
  let lightness : Option ℚ := (dataArray[i]?).map fun (d : Nat) => 50 + (d : ℚ) / 10
  { x0 := x, y0 := bh.map fun b => height - b, x1 := x, y1 := height,
    stops := [(0, Colour.hsl hue saturation (some 75)),
              (1 / 2, Colour.hsl hue saturation lightness),
              (1, Colour.rgba 0 0 0 0)] }

/-- The `for` loop of `drawSpectrum` (lines 148-162), started at bar `i` with
`remaining` iterations to go and the running abscissa `x`. -/
def spectrumLoop (height sensitivity lineWidth barWidth : ℚ) (bars : Nat)
    (dataArray : List Nat) : (remaining : Nat) → (i : Nat) → (x : ℚ) → List CanvasOp
  | 0, _, _ => []
  | remaining + 1, i, x =>
    let bh := barHeight height sensitivity dataArray i
    CanvasOp.setFillStyle (Style.gradient (barGradient height sensitivity bars dataArray i x)) ::
    CanvasOp.fillRect x (bh.map fun b => height - b) (barWidth - lineWidth) bh ::
      spectrumLoop height sensitivity lineWidth barWidth bars dataArray remaining (i + 1)
        (x + barWidth)

/-- Lines 144-162 of `drawSpectrum`: `bars = Math.min(256, frequencyBinCount)`,
`barWidth = width / bars`, then the loop. -/
def spectrumBars (width height sensitivity lineWidth : ℚ) (frequencyBinCount : Nat)
    (dataArray : List Nat) : List CanvasOp :=
  let bars : Nat := min 256 frequencyBinCount
  let barWidth : ℚ := width / (bars : ℚ)
  spectrumLoop height sensitivity lineWidth barWidth bars dataArray bars 0 0

/-! ## Platform: the Web Audio analyser -/

/-- The attributes of the `AnalyserNode` the script uses. -/
structure Analyser where
  fftSize : Nat
  smoothingTimeConstant : ℚ
  deriving DecidableEq, Repr

/-- Platform: the sizes the `fftSize` attribute accepts, the powers of two from
`2^5 = 32` to `2^15 = 32768`. -/
def supportedFftSize (n : Int) : Bool :=
  (List.range 16).any fun k => decide (5 ≤ k) && decide (n = 2 ^ k)

/-- Platform: `audioCtx.createAnalyser()` with the defaults of the Web Audio
API. -/
def createAnalyser : Analyser :=
  { fftSize := 2048, smoothingTimeConstant := 4 / 5 }

/-- Platform: `analyser.frequencyBinCount`, half the FFT size. -/
def Analyser.frequencyBinCount (a : Analyser) : Nat :=
  a.fftSize / 2

/-- Platform: assignment to `analyser.fftSize`.  A value that is not a
supported size (`NaN` included) raises `IndexSizeError` and changes nothing. -/
def Analyser.setFftSize (a : Analyser) (value : Option Int) : Except String Analyser :=
  match value with
  | some n => if supportedFftSize n = true then .ok { a with fftSize := n.toNat }
              else .error "IndexSizeError"
  | none => .error "IndexSizeError"

/-- Platform: assignment to `analyser.smoothingTimeConstant`.  A value outside
`[0, 1]` raises `IndexSizeError`, `NaN` raises `TypeError`; both change nothing. -/
def Analyser.setSmoothingTimeConstant (a : Analyser) (value : Option ℚ) :
    Except String Analyser :=
  match value with
  | some v => if 0 ≤ v ∧ v ≤ 1 then .ok { a with smoothingTimeConstant := v }
              else .error "IndexSizeError"
  | none => .error "TypeError"

/-- What the analyser currently measures: byte `k` of the time-domain window and
the byte magnitude of frequency bin `k`. -/
structure Signal where
  timeDomain : Nat → Nat
  frequency : Nat → Nat

/-- Platform: `analyser.getByteTimeDomainData(array)` overwrites the first
`min(array.length, fftSize)` entries of `array` and leaves the rest. -/
def Analyser.getByteTimeDomainData (a : Analyser) (sig : Signal) (array : List Nat) :
    List Nat :=
  (List.range (min array.length a.fftSize)).map sig.timeDomain ++
    array.drop (min array.length a.fftSize)

/-- Platform: `analyser.getByteFrequencyData(array)` overwrites the first
`min(array.length, frequencyBinCount)` entries of `array` and leaves the rest. -/
def Analyser.getByteFrequencyData (a : Analyser) (sig : Signal) (array : List Nat) :
    List Nat :=
  (List.range (min array.length a.frequencyBinCount)).map sig.frequency ++
    array.drop (min array.length a.frequencyBinCount)

/-! ## State -/

/-- Values of the page the script reads: the controls and the layout size of
the canvas.  `fftSizeValue` is `parseInt(fftSizeSelect.value, 10)` and
`smoothingValue` is `parseFloat(smoothingSlider.value)`. -/
structure Controls where
  fftSizeValue : Option Int
  smoothingValue : Option ℚ
  sensitivity : ℚ
  lineWidth : ℚ
  progressValue : ℚ
  clientWidth : ℚ
  clientHeight : ℚ
  deriving DecidableEq, Repr

/-- The variables of the script, the audio element, the icons, the
animation-frame scheduler and the record of what was drawn. -/
structure State where
  /-- Module variable `audioCtx` is defined. -/
  audioCtx : Bool
  /-- Module variable `analyser`. -/
  analyser : Option Analyser
  /-- Module variable `source` is defined. -/
  source : Bool
  /-- Module variable `dataArray`. -/
  dataArray : Option (List Nat)
  /-- Module variable `frameId`. -/
  frameId : Option Nat
  /-- Module variable `animationMode`. -/
  animationMode : String
  /-- Flag `progressSlider.isDragging`. -/
  isDragging : Bool
  /-- Attribute `audioEl.paused`. -/
  paused : Bool
  /-- Attribute `audioEl.currentTime`. -/
  currentTime : ℚ
  /-- Attribute `audioEl.volume`. -/
  volume : ℚ
  /-- Promises returned by `audioEl.play()` that are not settled yet. -/
  pendingPlay : Nat
  /-- Class `hidden` on the play icon. -/
  playIconHidden : Bool
  /-- Class `hidden` on the pause icon. -/
  pauseIconHidden : Bool
  /-- The overlay text is the Web Audio error message. -/
  overlayError : Bool
  /-- The controls and the canvas size. -/
  ui : Controls
  /-- Scheduler: the last handle `requestAnimationFrame` returned. -/
  rafCounter : Nat
  /-- Scheduler: handles of the requests that are outstanding. -/
  rafQueue : List Nat
  /-- Every call made on the 2D context so far. -/
  canvasLog : List CanvasOp
  /-- Every call of a drawing function so far, by name. -/
  drawCalls : List String
  deriving DecidableEq, Repr

/-- State after the script has been loaded (lines 30-38), for given control
values: nothing constructed, no frame requested, mode `waveform`. -/
def initialState (ui : Controls) : State :=
  { audioCtx := false, analyser := none, source := false, dataArray := none,
    frameId := none, animationMode := "waveform", isDragging := false,
    paused := true, currentTime := 0, volume := 1, pendingPlay := 0,
    playIconHidden := false, pauseIconHidden := true, overlayError := false,
    ui := ui, rafCounter := 0, rafQueue := [], canvasLog := [], drawCalls := [] }

/-- The host: whether `new AudioContext()` succeeds. -/
structure Host where
  audioContextAvailable : Bool
  deriving DecidableEq, Repr

/-- What a handler leaves behind: the state, and the exception that escaped it. -/
structure Outcome where
  state : State
  error : Option String
  deriving DecidableEq, Repr

/-- Normal completion. -/
def Outcome.ok (s : State) : Outcome := { state := s, error := none }

/-- Sequencing of statements: what follows runs only if nothing was thrown. -/
def Outcome.andThen (o : Outcome) (f : State → Outcome) : Outcome :=
  match o.error with
  | none => f o.state
  | some _ => o

/-! ## The functions of the script -/

/-- Function `setupAudio(fftSize, smoothing)` (lines 57-83).  The two arguments
are the values `parseInt(fftSize, 10)` and `parseFloat(smoothing)` take. -/
def setupAudio (host : Host) (s : State) (fftSize : Option Int) (smoothing : Option ℚ) :
    Outcome :=
  if s.audioCtx = false ∧ host.audioContextAvailable = false then
    -- the constructor throws, the `catch` reports it and returns
    Outcome.ok { s with overlayError := true }
  else
    let s1 := { s with audioCtx := true }
    let a0 := match s1.analyser with
      | some a => a
      | none => createAnalyser
    let s2 := { s1 with analyser := some a0 }
    let newFft := fftSize
    match (if some (a0.fftSize : Int) ≠ newFft then a0.setFftSize newFft else .ok a0) with
    | .error e => { state := s2, error := some e }
    | .ok a1 =>
      let s3 := { s2 with analyser := some a1 }
      let newSmooth := smoothing
      match (if some a1.smoothingTimeConstant ≠ newSmooth
             then a1.setSmoothingTimeConstant newSmooth else .ok a1) with
      | .error e => { state := s3, error := some e }
      | .ok a2 =>
        Outcome.ok { s3 with analyser := some a2,
                             dataArray := some (List.replicate a2.fftSize 0) }

/-- Function `connectSource()` (lines 86-91).  Without an audio context the
call `audioCtx.createMediaElementSource` is a `TypeError`; without an analyser
`source.connect(analyser)` is one. -/
def connectSource (s : State) : Outcome :=
  if s.audioCtx = false then { state := s, error := some "TypeError" }
  else
    let s1 := { s with source := true }
    if s1.analyser.isSome then Outcome.ok s1
    else { state := s1, error := some "TypeError" }

/-- Function `drawWaveform()` (lines 94-130). -/
def drawWaveform (s : State) (sig : Signal) : Outcome :=
  let s0 := { s with drawCalls := s.drawCalls ++ ["drawWaveform"] }
  let width := s.ui.clientWidth
  let height := s.ui.clientHeight
  match s0.analyser, s0.dataArray with
  | some a, some d =>
    let data := a.getByteTimeDomainData sig d
    let sensitivity := s.ui.sensitivity
    let lineWidth := s.ui.lineWidth
    let lineGradient : Gradient :=
      { x0 := 0, y0 := some 0, x1 := width, y1 := 0,
        stops := [(0, Colour.hex "#9333ea"), (1, Colour.hex "#3b82f6")] }
    let ops : List CanvasOp :=
      [CanvasOp.clearRect 0 0 width height,
       CanvasOp.setFillStyle (Style.colour (Colour.rgba 0 0 0 (9 / 10))),
       CanvasOp.fillRect 0 (some 0) width (some height),
       CanvasOp.setLineWidth lineWidth,
       CanvasOp.setStrokeStyle (Style.gradient lineGradient),
       CanvasOp.beginPath] ++
      waveformPath width height sensitivity a.fftSize data ++ [CanvasOp.stroke]
    Outcome.ok { s0 with dataArray := some data, canvasLog := s0.canvasLog ++ ops }
  | _, _ => { state := s0, error := some "TypeError" }

/-- Function `drawSpectrum()` (lines 132-163). -/
def drawSpectrum (s : State) (sig : Signal) : Outcome :=
  let s0 := { s with drawCalls := s.drawCalls ++ ["drawSpectrum"] }
  let width := s.ui.clientWidth
  let height := s.ui.clientHeight
  match s0.analyser, s0.dataArray with
  | some a, some d =>
    let data := a.getByteFrequencyData sig d
    let sensitivity := s.ui.sensitivity
    let lineWidth := s.ui.lineWidth
    let ops : List CanvasOp :=
      [CanvasOp.clearRect 0 0 width height,
       CanvasOp.setFillStyle (Style.colour (Colour.rgba 0 0 0 (9 / 10))),
       CanvasOp.fillRect 0 (some 0) width (some height)] ++
      spectrumBars width height sensitivity lineWidth a.frequencyBinCount data
    Outcome.ok { s0 with dataArray := some data, canvasLog := s0.canvasLog ++ ops }
  | _, _ => { state := s0, error := some "TypeError" }

/-- Platform: `requestAnimationFrame(callback)` returns the next handle, a
positive integer, and the request is outstanding from then on. -/
def requestAnimationFrame (s : State) : Nat × State :=
  (s.rafCounter + 1,
   { s with rafCounter := s.rafCounter + 1, rafQueue := s.rafQueue ++ [s.rafCounter + 1] })

/-- Platform: `cancelAnimationFrame(handle)` withdraws the request. -/
def cancelAnimationFrame (s : State) (handle : Nat) : State :=
  { s with rafQueue := s.rafQueue.filter fun h => h ≠ handle }

/-- Function `draw()` (lines 166-173). -/
def draw (s : State) (sig : Signal) : Outcome :=
  let r := requestAnimationFrame s
  let s1 := { r.2 with frameId := some r.1 }
  if s1.animationMode = "waveform" then drawWaveform s1 sig
  else if s1.animationMode = "spectrum" then drawSpectrum s1 sig
  else Outcome.ok s1

/-- Function `togglePlayPause()` (lines 178-199) up to the call of
`audioEl.play()` or `audioEl.pause()`.  Platform: `play()` clears `paused` and
returns a promise that is settled later; `pause()` sets `paused` and rejects the
promises that are pending. -/
def togglePlayPause (host : Host) (s : State) : Outcome :=
  (if s.audioCtx = false then
      (setupAudio host s s.ui.fftSizeValue s.ui.smoothingValue).andThen connectSource
    else Outcome.ok s).andThen fun s1 =>
    if s1.audioCtx = false then { state := s1, error := some "TypeError" }
    else if s1.paused = true then
      Outcome.ok { s1 with paused := false, pendingPlay := s1.pendingPlay + 1 }
    else
      Outcome.ok { s1 with paused := true, pendingPlay := 0,
                           playIconHidden := false, pauseIconHidden := true }

/-- The `then` callback of `audioEl.play()` (lines 189-193). -/
def playThen (s : State) (sig : Signal) : Outcome :=
  let s1 := { s with pauseIconHidden := false, playIconHidden := true }
  if s1.frameId = none then draw s1 sig else Outcome.ok s1

/-- The click handler of a mode button (lines 203-224); `mode` is
`btn.textContent.toLowerCase()`. -/
def modeClick (host : Host) (s : State) (mode : String) : Outcome :=
  if mode = "spectrogram" then Outcome.ok s
  else
    let s1 := { s with animationMode := mode }
    if s1.audioCtx = true ∧ s1.analyser.isSome = true then
      setupAudio host s1 s1.ui.fftSizeValue s1.ui.smoothingValue
    else Outcome.ok s1

/-- The `input` handler of the volume slider (lines 228-232). -/
def volumeInput (s : State) (volume : ℚ) : Outcome :=
  Outcome.ok { s with volume := volume / 100 }

/-- The `change` handler of the FFT-size select (lines 235-239). -/
def fftSizeChange (host : Host) (s : State) : Outcome :=
  if s.audioCtx = true then setupAudio host s s.ui.fftSizeValue s.ui.smoothingValue
  else Outcome.ok s

/-- The `input` handler of the smoothing slider (lines 241-246). -/
def smoothingInput (host : Host) (s : State) : Outcome :=
  if s.audioCtx = true then setupAudio host s s.ui.fftSizeValue s.ui.smoothingValue
  else Outcome.ok s

/-- The `input` handler of the progress slider (lines 257-259). -/
def progressInput (s : State) : Outcome :=
  Outcome.ok { s with isDragging := true }

/-- The `change` handler of the progress slider (lines 260-268). -/
def progressChange (s : State) (sig : Signal) : Outcome :=
  let s1 := { s with currentTime := s.ui.progressValue }
  let s2 := { s1 with isDragging := false }
  if s2.paused = false ∧ s2.frameId = none then draw s2 sig else Outcome.ok s2

/-- Handler `audioEl.ontimeupdate` (lines 270-275). -/
def ontimeupdate (s : State) : Outcome :=
  if s.isDragging = false then
    Outcome.ok { s with ui := { s.ui with progressValue := s.currentTime } }
  else Outcome.ok s

/-- Handler `audioEl.onended` (lines 280-288).  The test `if (frameId)` passes
for a handle other than `0`. -/
def onended (s : State) : Outcome :=
  let s1 := match s.frameId with
    | some h => if h ≠ 0 then { cancelAnimationFrame s h with frameId := none } else s
    | none => s
  let s2 := { s1 with playIconHidden := false }
  let s3 := { s2 with pauseIconHidden := true }
  Outcome.ok { s3 with currentTime := 0 }

/-- The `change` handler of the file input (lines 291-312) when a file was
chosen.  Platform: `audioEl.load()` pauses the element, rewinds it and rejects
the pending `play()` promises. -/
def fileChange (host : Host) (s : State) : Outcome :=
  let s1 := { s with paused := true, currentTime := 0, pendingPlay := 0 }
  if s1.audioCtx = true ∧ s1.analyser.isSome = true then
    (setupAudio host s1 s1.ui.fftSizeValue s1.ui.smoothingValue).andThen connectSource
  else Outcome.ok s1

/-- Platform: the scheduler runs the callback of request `handle`, which is
`draw`, if that request is outstanding; a request that was cancelled or never
made runs nothing. -/
def frameCallback (s : State) (handle : Nat) (sig : Signal) : Outcome :=
  if handle ∈ s.rafQueue then
    draw { s with rafQueue := s.rafQueue.filter fun h => h ≠ handle } sig
  else Outcome.ok s

/-! ## Events -/

/-- What can happen to the page. -/
inductive Event where
  /-- Click on the play/pause button. -/
  | playPauseClick
  /-- The promise of a `play()` call is fulfilled. -/
  | playFulfilled (sig : Signal)
  /-- The promise of a `play()` call is rejected. -/
  | playRejected
  /-- Click on the mode button with the given lower-cased text. -/
  | modeClick (mode : String)
  /-- The user moves the volume slider. -/
  | volumeInput (volume : ℚ)
  /-- The user picks an entry of the FFT-size select. -/
  | fftSizeChange (value : Option Int)
  /-- The user moves the smoothing slider. -/
  | smoothingInput (value : Option ℚ)
  /-- The user moves the sensitivity slider. -/
  | sensitivityInput (value : ℚ)
  /-- The user moves the line-width slider. -/
  | lineWidthInput (value : ℚ)
  /-- The user drags the progress slider to a value. -/
  | progressInput (value : ℚ)
  /-- The user releases the progress slider. -/
  | progressChange (sig : Signal)
  /-- Playback has moved to `position` and reports it. -/
  | timeupdate (position : ℚ)
  /-- Playback has reached the end. -/
  | ended
  /-- The user chooses a file. -/
  | fileChange
  /-- The layout gives the canvas a new size. -/
  | resize (width height : ℚ)
  /-- The scheduler runs the frame request `handle`. -/
  | frame (handle : Nat) (sig : Signal)

/-- The handler of an event, after what the platform does to the page before
it calls the handler. -/
def handle (host : Host) (s : State) : Event → Outcome
  | .playPauseClick => togglePlayPause host s
  | .playFulfilled sig =>
    if 0 < s.pendingPlay then playThen { s with pendingPlay := s.pendingPlay - 1 } sig
    else Outcome.ok s
  | .playRejected =>
    if 0 < s.pendingPlay then Outcome.ok { s with pendingPlay := s.pendingPlay - 1 }
    else Outcome.ok s
  | .modeClick mode => modeClick host s mode
  | .volumeInput v => volumeInput s v
  | .fftSizeChange v => fftSizeChange host { s with ui := { s.ui with fftSizeValue := v } }
  | .smoothingInput v => smoothingInput host { s with ui := { s.ui with smoothingValue := v } }
  | .sensitivityInput v => Outcome.ok { s with ui := { s.ui with sensitivity := v } }
  | .lineWidthInput v => Outcome.ok { s with ui := { s.ui with lineWidth := v } }
  | .progressInput v => progressInput { s with ui := { s.ui with progressValue := v } }
  | .progressChange sig => progressChange s sig
  | .timeupdate position => ontimeupdate { s with currentTime := position }
  | .ended => onended { s with paused := true, pendingPlay := 0 }
  | .fileChange => fileChange host s
  | .resize w h => Outcome.ok { s with ui := { s.ui with clientWidth := w, clientHeight := h } }
  | .frame h sig => frameCallback s h sig

/-- One event: the state the handler leaves, thrown or not. -/
def step (host : Host) (s : State) (e : Event) : State :=
  (handle host s e).state

/-- A sequence of events, first to last. -/
def run (host : Host) (s : State) (es : List Event) : State :=
  es.foldl (step host) s

/-- States the page can be in: the initial one and what events make of it. -/
inductive Reachable (host : Host) : State → Prop where
  | init (ui : Controls) : Reachable host (initialState ui)
  | step {s : State} (e : Event) : Reachable host s → Reachable host (step host s e)

/-! ## Observations used in the statements -/

/-- The canvas calls a handler made: what it appended to the log of `s`. -/
def Outcome.newOps (o : Outcome) (s : State) : List CanvasOp :=
  o.state.canvasLog.drop s.canvasLog.length

/-- The ordinates handed to `moveTo` and `lineTo`, in order. -/
def pathYs (ops : List CanvasOp) : List (Option ℚ) :=
  ops.filterMap fun op =>
    match op with
    | CanvasOp.moveTo _ y => some y
    | CanvasOp.lineTo _ y => some y
    | _ => none

/-- The path calls (`moveTo`, `lineTo`), in order. -/
def pathOps (ops : List CanvasOp) : List CanvasOp :=
  ops.filter fun op =>
    match op with
    | CanvasOp.moveTo _ _ => true
    | CanvasOp.lineTo _ _ => true
    | _ => false

/-- The heights of the bars: the last argument of every `fillRect` issued by
the loop of `drawSpectrum`, in order. -/
def barHeights (ops : List CanvasOp) : List (Option ℚ) :=
  ops.filterMap fun op =>
    match op with
    | CanvasOp.fillRect _ _ _ h => some h
    | _ => none

/-- The time-domain snapshot of a frame: the entries of the buffer that
`getByteTimeDomainData` has just written. -/
def timeDomainSnapshot (a : Analyser) (sig : Signal) (dataArray : List Nat) : List Nat :=
  (a.getByteTimeDomainData sig dataArray).take (min dataArray.length a.fftSize)

/-- The frequency-domain snapshot of a frame: the entries of the buffer that
`getByteFrequencyData` has just written. -/
def frequencySnapshot (a : Analyser) (sig : Signal) (dataArray : List Nat) : List Nat :=
  (a.getByteFrequencyData sig dataArray).take (min dataArray.length a.frequencyBinCount)

/-- A page with a 400 by 300 canvas whose controls ask for 32 samples. -/
def demoControls : Controls :=
  { fftSizeValue := some 32, smoothingValue := some (1 / 2), sensitivity := 2,
    lineWidth := 1, progressValue := 7, clientWidth := 400, clientHeight := 300 }

/-- The page of `demoControls` once the analyser is configured for 32 samples. -/
def demoState : State :=
  { initialState demoControls with
    audioCtx := true,
    analyser := some { fftSize := 32, smoothingTimeConstant := 1 / 2 },
    source := true,
    dataArray := some (List.replicate 32 0) }

/-- The page of `demoState` with the sensitivity slider at 1. -/
def demoUnit : State :=
  { demoState with ui := { demoControls with sensitivity := 1 } }

/-- Silence: every time-domain byte is 128 and every magnitude is 0. -/
def silence : Signal :=
  { timeDomain := fun _ => 128, frequency := fun _ => 0 }

/-- Full scale: every time-domain byte and every magnitude is 255. -/
def fullScale : Signal :=
  { timeDomain := fun _ => 255, frequency := fun _ => 255 }

/-- The render loop and the canvas are as they were: same `frameId`, same
outstanding requests, same handle counter, same record of drawing. -/
def LoopSame (s t : State) : Prop :=
  t.frameId = s.frameId ∧ t.rafQueue = s.rafQueue ∧ t.rafCounter = s.rafCounter ∧
    t.drawCalls = s.drawCalls ∧ t.canvasLog = s.canvasLog

/-- The analyser, if there is one, has a supported FFT size. -/
def AnalyserOk (s : State) : Prop :=
  ∀ a, s.analyser = some a → supportedFftSize (a.fftSize : Int) = true

/-- Either no frame request is outstanding and `frameId` is `null`, or exactly
one is outstanding and `frameId` is its handle, a positive integer. -/
def FrameInv (s : State) : Prop :=
  (s.frameId = none ∧ s.rafQueue = []) ∨
    ∃ h : Nat, h ≠ 0 ∧ s.frameId = some h ∧ s.rafQueue = [h]

/-- A host on which `new AudioContext()` succeeds. -/
def demoHost : Host :=
  { audioContextAvailable := true }

/-- The page of `demoControls` after a click on play and the fulfilment of the
`play()` promise: the render loop runs. -/
def demoPlaying : State :=
  run demoHost (initialState demoControls) [Event.playPauseClick, Event.playFulfilled silence]

/-! ## The drawing loops in closed form -/

theorem waveformLoop_eq (height sensitivity sliceWidth : ℚ) (dataArray : List Nat)
    (remaining i : Nat) (x : ℚ) :
    waveformLoop height sensitivity sliceWidth dataArray remaining i x =
      (List.range remaining).map fun k =>
        (if i + k = 0 then CanvasOp.moveTo else CanvasOp.lineTo)
          (x + (k : ℚ) * sliceWidth) (waveformY height sensitivity dataArray (i + k)) := by
  induction remaining generalizing i x with
  | zero => simp [waveformLoop]
  | succ n ih =>
    rw [waveformLoop, ih, List.range_succ_eq_map, List.map_cons, List.map_map]
    congr 1
    · by_cases hi : i = 0 <;> simp [hi]
    · apply List.map_congr_left
      intro k _
      have h1 : i + 1 + k = i + (k + 1) := by omega
      have h2 : x + sliceWidth + (k : ℚ) * sliceWidth =
          x + ((k + 1 : Nat) : ℚ) * sliceWidth := by
        push_cast; ring
      simp only [Function.comp, Nat.succ_eq_add_one, h1, h2]

theorem spectrumLoop_eq (height sensitivity lineWidth barWidth : ℚ) (bars : Nat)
    (dataArray : List Nat) (remaining i : Nat) (x : ℚ) :
    spectrumLoop height sensitivity lineWidth barWidth bars dataArray remaining i x =
      (List.range remaining).flatMap fun k =>
        [CanvasOp.setFillStyle (Style.gradient
           (barGradient height sensitivity bars dataArray (i + k) (x + (k : ℚ) * barWidth))),
         CanvasOp.fillRect (x + (k : ℚ) * barWidth)
           ((barHeight height sensitivity dataArray (i + k)).map fun b => height - b)
           (barWidth - lineWidth) (barHeight height sensitivity dataArray (i + k))] := by
  induction remaining generalizing i x with
  | zero => simp [spectrumLoop]
  | succ n ih =>
    rw [spectrumLoop, ih, List.range_succ_eq_map, List.flatMap_cons, List.flatMap_map]
    simp only [Nat.cast_zero, zero_mul, add_zero, List.cons_append, List.nil_append]
    congr 2
    apply List.flatMap_congr
    intro k _
    have h1 : i + 1 + k = i + (k + 1) := by omega
    have h2 : x + barWidth + (k : ℚ) * barWidth = x + ((k + 1 : Nat) : ℚ) * barWidth := by
      push_cast; ring
    simp only [Nat.succ_eq_add_one, h1, h2]

/-! ## What the analyser leaves in the buffer -/

theorem getByteTimeDomainData_getElem? (a : Analyser) (sig : Signal) (d : List Nat)
    (i : Nat) (hi : i < a.fftSize) (hlen : a.fftSize ≤ d.length) :
    (a.getByteTimeDomainData sig d)[i]? = some (sig.timeDomain i) := by
  unfold Analyser.getByteTimeDomainData
  rw [Nat.min_eq_right hlen, List.getElem?_append_left (by simpa using hi)]
  simp [hi]

theorem getByteFrequencyData_getElem? (a : Analyser) (sig : Signal) (d : List Nat)
    (i : Nat) (hi : i < a.frequencyBinCount) (hlen : a.frequencyBinCount ≤ d.length) :
    (a.getByteFrequencyData sig d)[i]? = some (sig.frequency i) := by
  unfold Analyser.getByteFrequencyData
  rw [Nat.min_eq_right hlen, List.getElem?_append_left (by simpa using hi)]
  simp [hi]

/-! ## The drawing functions in closed form -/

theorem waveformPath_eq (width height sensitivity : ℚ) (bufferLength : Nat)
    (dataArray : List Nat) (sample : Nat → Nat)
    (h : ∀ i, i < bufferLength → dataArray[i]? = some (sample i)) :
    waveformPath width height sensitivity bufferLength dataArray =
      (List.range bufferLength).map (fun (i : Nat) =>
        (if i = 0 then CanvasOp.moveTo else CanvasOp.lineTo)
          ((i : ℚ) * (width / (bufferLength : ℚ)))
          (some (height / 2 + ((sample i : ℚ) / 128 - 1) * (height / 2) * sensitivity))) ++
      [CanvasOp.lineTo width (some (height / 2))] := by
  simp only [waveformPath]
  rw [waveformLoop_eq]
  congr 1
  apply List.map_congr_left
  intro k hk
  have hk2 : k < bufferLength := List.mem_range.mp hk
  simp [waveformY, h k hk2]

theorem spectrumBars_barHeights (width height sensitivity lineWidth : ℚ)
    (frequencyBinCount : Nat) (dataArray : List Nat) :
    barHeights (spectrumBars width height sensitivity lineWidth frequencyBinCount dataArray) =
      (List.range (min 256 frequencyBinCount)).map fun i =>
        barHeight height sensitivity dataArray i := by
  simp only [spectrumBars]
  rw [spectrumLoop_eq]
  generalize min 256 frequencyBinCount = n
  simp only [Nat.zero_add]
  generalize width / (n : ℚ) = bw
  induction (List.range n) with
  | nil => simp [barHeights]
  | cons k ks ih =>
    simp only [List.flatMap_cons, List.map_cons]
    rw [← ih]
    simp [barHeights, List.filterMap_cons]

theorem pathOps_append (xs ys : List CanvasOp) :
    pathOps (xs ++ ys) = pathOps xs ++ pathOps ys := by
  simp [pathOps]

theorem pathOps_waveformPath (width height sensitivity : ℚ) (bufferLength : Nat)
    (dataArray : List Nat) :
    pathOps (waveformPath width height sensitivity bufferLength dataArray) =
      waveformPath width height sensitivity bufferLength dataArray := by
  simp only [waveformPath, pathOps]
  rw [waveformLoop_eq]
  apply List.filter_eq_self.mpr
  intro op hop
  rcases List.mem_append.mp hop with h | h
  · obtain ⟨k, _, rfl⟩ := List.mem_map.mp h
    by_cases hk : k = 0 <;> simp [hk]
  · simp at h
    subst h
    rfl

theorem pathYs_eq_map_pathOps (ops : List CanvasOp) :
    pathYs ops = pathYs (pathOps ops) := by
  induction ops with
  | nil => rfl
  | cons op ops ih =>
    cases op <;> simp_all [pathYs, pathOps, List.filterMap_cons, List.filter_cons]

theorem drawWaveform_eq (s : State) (a : Analyser) (d : List Nat) (sig : Signal)
    (ha : s.analyser = some a) (hd : s.dataArray = some d) :
    (drawWaveform s sig).error = none ∧
    (drawWaveform s sig).state.canvasLog = s.canvasLog ++
      ([CanvasOp.clearRect 0 0 s.ui.clientWidth s.ui.clientHeight,
        CanvasOp.setFillStyle (Style.colour (Colour.rgba 0 0 0 (9 / 10))),
        CanvasOp.fillRect 0 (some 0) s.ui.clientWidth (some s.ui.clientHeight),
        CanvasOp.setLineWidth s.ui.lineWidth,
        CanvasOp.setStrokeStyle (Style.gradient
          { x0 := 0, y0 := some 0, x1 := s.ui.clientWidth, y1 := 0,
            stops := [(0, Colour.hex "#9333ea"), (1, Colour.hex "#3b82f6")] }),
        CanvasOp.beginPath] ++
       waveformPath s.ui.clientWidth s.ui.clientHeight s.ui.sensitivity a.fftSize
         (a.getByteTimeDomainData sig d) ++ [CanvasOp.stroke]) := by
  simp [drawWaveform, ha, hd, Outcome.ok]

theorem drawWaveform_pathOps (s : State) (a : Analyser) (d : List Nat) (sig : Signal)
    (ha : s.analyser = some a) (hd : s.dataArray = some d) :
    pathOps ((drawWaveform s sig).newOps s) =
      waveformPath s.ui.clientWidth s.ui.clientHeight s.ui.sensitivity a.fftSize
        (a.getByteTimeDomainData sig d) := by
  unfold Outcome.newOps
  rw [(drawWaveform_eq s a d sig ha hd).2, List.drop_left, pathOps_append, pathOps_append,
    pathOps_waveformPath]
  simp [pathOps]

theorem drawSpectrum_eq (s : State) (a : Analyser) (d : List Nat) (sig : Signal)
    (ha : s.analyser = some a) (hd : s.dataArray = some d) :
    (drawSpectrum s sig).error = none ∧
    (drawSpectrum s sig).state.canvasLog = s.canvasLog ++
      ([CanvasOp.clearRect 0 0 s.ui.clientWidth s.ui.clientHeight,
        CanvasOp.setFillStyle (Style.colour (Colour.rgba 0 0 0 (9 / 10))),
        CanvasOp.fillRect 0 (some 0) s.ui.clientWidth (some s.ui.clientHeight)] ++
       spectrumBars s.ui.clientWidth s.ui.clientHeight s.ui.sensitivity s.ui.lineWidth
         a.frequencyBinCount (a.getByteFrequencyData sig d)) := by
  simp [drawSpectrum, ha, hd, Outcome.ok]

/-! ## Configuration of the analyser -/

theorem supportedFftSize_iff (n : Int) :
    supportedFftSize n = true ↔ ∃ k : Nat, 5 ≤ k ∧ k ≤ 15 ∧ n = 2 ^ k := by
  simp only [supportedFftSize, List.any_eq_true, List.mem_range, Bool.and_eq_true,
    decide_eq_true_eq]
  constructor
  · rintro ⟨k, hk, h5, hn⟩
    exact ⟨k, h5, by omega, hn⟩
  · rintro ⟨k, h5, h15, hn⟩
    exact ⟨k, by omega, h5, hn⟩

theorem supportedFftSize_toNat (n : Int) (h : supportedFftSize n = true) :
    ((n.toNat : Nat) : Int) = n := by
  obtain ⟨k, _, _, rfl⟩ := (supportedFftSize_iff n).mp h
  apply Int.toNat_of_nonneg
  positivity

theorem setFftSize_if_changed (a : Analyser) (R : Int) (hR : supportedFftSize R = true) :
    (if some (a.fftSize : Int) ≠ some R then a.setFftSize (some R) else .ok a) =
      .ok { a with fftSize := R.toNat } := by
  by_cases h : some (a.fftSize : Int) = some R
  · have hb : (a.fftSize : Int) = R := Option.some.inj h
    have hc : R.toNat = a.fftSize := by rw [← hb]; rfl
    rw [if_neg (not_not.mpr h), hc]
  · rw [if_pos h]
    simp [Analyser.setFftSize, hR]

theorem setSmoothing_if_changed (n : Nat) (v0 v : ℚ) (hv : 0 ≤ v ∧ v ≤ 1) :
    (if some v0 ≠ some v then
        Analyser.setSmoothingTimeConstant { fftSize := n, smoothingTimeConstant := v0 } (some v)
      else .ok { fftSize := n, smoothingTimeConstant := v0 }) =
      .ok { fftSize := n, smoothingTimeConstant := v } := by
  by_cases h : some v0 = some v
  · have hb : v0 = v := Option.some.inj h
    rw [if_neg (not_not.mpr h), hb]
  · rw [if_pos h]
    simp [Analyser.setSmoothingTimeConstant, hv]

theorem setupAudio_valid (host : Host) (s : State) (R : Int) (smoothing : ℚ)
    (hR : supportedFftSize R = true) (hsm : 0 ≤ smoothing ∧ smoothing ≤ 1)
    (hctx : s.audioCtx = true ∨ host.audioContextAvailable = true) :
    setupAudio host s (some R) (some smoothing) =
      Outcome.ok { s with
        audioCtx := true,
        analyser := some { fftSize := R.toNat, smoothingTimeConstant := smoothing },
        dataArray := some (List.replicate R.toNat 0) } := by
  have hnot : ¬ (s.audioCtx = false ∧ host.audioContextAvailable = false) := by
    rintro ⟨h1, h2⟩
    rcases hctx with h | h
    · rw [h1] at h; exact Bool.noConfusion h
    · rw [h2] at h; exact Bool.noConfusion h
  unfold setupAudio
  rw [if_neg hnot]
  rcases hs : s.analyser with _ | a0 <;>
    simp only [setFftSize_if_changed _ R hR] <;>
    rw [setSmoothing_if_changed _ _ smoothing hsm]

theorem setupAudio_invalid (host : Host) (s : State) (a : Analyser) (fftSize : Option Int)
    (smoothing : Option ℚ) (hctx : s.audioCtx = true) (ha : s.analyser = some a)
    (hvalid : supportedFftSize (a.fftSize : Int) = true)
    (hbad : ∀ n, fftSize = some n → supportedFftSize n = false) :
    setupAudio host s fftSize smoothing = { state := s, error := some "IndexSizeError" } := by
  have hnot : ¬ (s.audioCtx = false ∧ host.audioContextAvailable = false) := by
    rintro ⟨h1, _⟩
    rw [h1] at hctx
    exact Bool.noConfusion hctx
  have hne : some (a.fftSize : Int) ≠ fftSize := by
    intro h
    rw [hbad _ h.symm] at hvalid
    exact Bool.noConfusion hvalid
  have hthrow : a.setFftSize fftSize = .error "IndexSizeError" := by
    cases fftSize with
    | none => rfl
    | some n => simp [Analyser.setFftSize, hbad n rfl]
  have hsame : ({ s with audioCtx := true, analyser := some a } : State) = s := by
    cases s
    simp_all
  unfold setupAudio
  rw [if_neg hnot]
  simp only [ha, if_pos hne, hthrow, hsame]

/-! ## What each function leaves alone -/

theorem LoopSame.refl (s : State) : LoopSame s s :=
  ⟨rfl, rfl, rfl, rfl, rfl⟩

theorem LoopSame.trans {s t u : State} (h1 : LoopSame s t) (h2 : LoopSame t u) :
    LoopSame s u :=
  ⟨h2.1.trans h1.1, h2.2.1.trans h1.2.1, h2.2.2.1.trans h1.2.2.1,
    h2.2.2.2.1.trans h1.2.2.2.1, h2.2.2.2.2.trans h1.2.2.2.2⟩

theorem andThen_cases (o : Outcome) (f : State → Outcome) :
    o.andThen f = o ∨ o.andThen f = f o.state := by
  unfold Outcome.andThen
  cases o.error <;> simp

theorem andThen_loopSame (s : State) (o : Outcome) (f : State → Outcome)
    (ho : LoopSame s o.state) (hf : ∀ t, LoopSame t (f t).state) :
    LoopSame s (o.andThen f).state := by
  rcases andThen_cases o f with h | h <;> rw [h]
  · exact ho
  · exact ho.trans (hf _)

theorem setupAudio_footprint (host : Host) (s : State) (fftSize : Option Int)
    (smoothing : Option ℚ) :
    ∃ c an d o, (setupAudio host s fftSize smoothing).state =
      { s with audioCtx := c, analyser := an, dataArray := d, overlayError := o } := by
  unfold setupAudio
  split
  · exact ⟨_, _, _, _, rfl⟩
  · simp only
    split
    · exact ⟨_, _, _, _, rfl⟩
    · split
      · exact ⟨_, _, _, _, rfl⟩
      · exact ⟨_, _, _, _, rfl⟩

theorem setupAudio_loopSame (host : Host) (s : State) (fftSize : Option Int)
    (smoothing : Option ℚ) : LoopSame s (setupAudio host s fftSize smoothing).state := by
  obtain ⟨c, an, d, o, h⟩ := setupAudio_footprint host s fftSize smoothing
  rw [h]
  exact ⟨rfl, rfl, rfl, rfl, rfl⟩

theorem connectSource_footprint (s : State) :
    ∃ b, (connectSource s).state = { s with source := b } := by
  unfold connectSource
  split
  · exact ⟨s.source, rfl⟩
  · simp only
    split <;> exact ⟨true, rfl⟩

theorem connectSource_loopSame (s : State) : LoopSame s (connectSource s).state := by
  obtain ⟨b, h⟩ := connectSource_footprint s
  rw [h]
  exact ⟨rfl, rfl, rfl, rfl, rfl⟩

theorem togglePlayPause_loopSame (host : Host) (s : State) :
    LoopSame s (togglePlayPause host s).state := by
  unfold togglePlayPause
  apply andThen_loopSame
  · split
    · exact andThen_loopSame _ _ _ (setupAudio_loopSame _ _ _ _) connectSource_loopSame
    · exact LoopSame.refl s
  · intro t
    split
    · exact LoopSame.refl t
    · split <;> exact ⟨rfl, rfl, rfl, rfl, rfl⟩

theorem modeClick_loopSame (host : Host) (s : State) (mode : String) :
    LoopSame s (modeClick host s mode).state := by
  unfold modeClick
  split
  · exact LoopSame.refl s
  · simp only
    split
    · exact LoopSame.trans ⟨rfl, rfl, rfl, rfl, rfl⟩ (setupAudio_loopSame _ _ _ _)
    · exact ⟨rfl, rfl, rfl, rfl, rfl⟩

theorem fftSizeChange_loopSame (host : Host) (s : State) :
    LoopSame s (fftSizeChange host s).state := by
  unfold fftSizeChange
  split
  · exact setupAudio_loopSame _ _ _ _
  · exact LoopSame.refl s

theorem smoothingInput_loopSame (host : Host) (s : State) :
    LoopSame s (smoothingInput host s).state := by
  unfold smoothingInput
  split
  · exact setupAudio_loopSame _ _ _ _
  · exact LoopSame.refl s

theorem ontimeupdate_loopSame (s : State) : LoopSame s (ontimeupdate s).state := by
  unfold ontimeupdate
  split <;> exact ⟨rfl, rfl, rfl, rfl, rfl⟩

theorem fileChange_loopSame (host : Host) (s : State) :
    LoopSame s (fileChange host s).state := by
  unfold fileChange
  simp only
  split
  · exact LoopSame.trans ⟨rfl, rfl, rfl, rfl, rfl⟩
      (andThen_loopSame _ _ _ (setupAudio_loopSame _ _ _ _) connectSource_loopSame)
  · exact ⟨rfl, rfl, rfl, rfl, rfl⟩

/-! ## The render loop -/

theorem drawWaveform_footprint (s : State) (sig : Signal) :
    ∃ d l, (drawWaveform s sig).state =
      { s with drawCalls := s.drawCalls ++ ["drawWaveform"], dataArray := d, canvasLog := l } := by
  unfold drawWaveform
  simp only
  split
  · exact ⟨_, _, rfl⟩
  · exact ⟨_, _, rfl⟩

theorem drawSpectrum_footprint (s : State) (sig : Signal) :
    ∃ d l, (drawSpectrum s sig).state =
      { s with drawCalls := s.drawCalls ++ ["drawSpectrum"], dataArray := d, canvasLog := l } := by
  unfold drawSpectrum
  simp only
  split
  · exact ⟨_, _, rfl⟩
  · exact ⟨_, _, rfl⟩

theorem draw_footprint (s : State) (sig : Signal) :
    ∃ c d l, (draw s sig).state =
      { s with frameId := some (s.rafCounter + 1), rafCounter := s.rafCounter + 1,
               rafQueue := s.rafQueue ++ [s.rafCounter + 1],
               drawCalls := c, dataArray := d, canvasLog := l } := by
  unfold draw requestAnimationFrame
  simp only
  split
  · obtain ⟨d, l, h⟩ := drawWaveform_footprint
      { s with rafCounter := s.rafCounter + 1, rafQueue := s.rafQueue ++ [s.rafCounter + 1],
               frameId := some (s.rafCounter + 1) } sig
    exact ⟨_, d, l, h⟩
  · split
    · obtain ⟨d, l, h⟩ := drawSpectrum_footprint
        { s with rafCounter := s.rafCounter + 1, rafQueue := s.rafQueue ++ [s.rafCounter + 1],
                 frameId := some (s.rafCounter + 1) } sig
      exact ⟨_, d, l, h⟩
    · exact ⟨_, _, _, rfl⟩

theorem draw_frameInv (s : State) (sig : Signal) (hq : s.rafQueue = []) :
    FrameInv (draw s sig).state := by
  obtain ⟨c, d, l, h⟩ := draw_footprint s sig
  rw [h]
  right
  exact ⟨s.rafCounter + 1, Nat.succ_ne_zero _, rfl, by simp [hq]⟩

theorem draw_started (s : State) (sig : Signal) : (draw s sig).state.frameId ≠ none := by
  obtain ⟨c, d, l, h⟩ := draw_footprint s sig
  rw [h]
  simp

theorem LoopSame.frameInv {s t : State} (h : LoopSame s t) (hs : FrameInv s) : FrameInv t := by
  unfold FrameInv
  rw [h.1, h.2.1]
  exact hs

theorem playThen_frameInv (s : State) (sig : Signal) (hs : FrameInv s) :
    FrameInv (playThen s sig).state := by
  unfold playThen
  simp only
  split
  · rename_i hnone
    apply draw_frameInv
    rcases hs with ⟨_, hq⟩ | ⟨h, _, hf, _⟩
    · exact hq
    · simp [hf] at hnone
  · exact hs

theorem progressChange_frameInv (s : State) (sig : Signal) (hs : FrameInv s) :
    FrameInv (progressChange s sig).state := by
  unfold progressChange
  simp only
  split
  · rename_i hcond
    apply draw_frameInv
    rcases hs with ⟨_, hq⟩ | ⟨h, _, hf, _⟩
    · exact hq
    · simp [hf] at hcond
  · exact hs

theorem frameCallback_frameInv (s : State) (handle : Nat) (sig : Signal) (hs : FrameInv s) :
    FrameInv (frameCallback s handle sig).state := by
  unfold frameCallback
  split
  · rename_i hmem
    apply draw_frameInv
    rcases hs with ⟨_, hq⟩ | ⟨h, _, _, hq⟩
    · simp [hq] at hmem
    · simp only [hq, List.mem_singleton] at hmem
      simp [hq, hmem]
  · exact hs

theorem onended_stopped (s : State) (hs : FrameInv s) :
    (onended s).state.frameId = none ∧ (onended s).state.rafQueue = [] ∧
    (onended s).state.currentTime = 0 ∧ (onended s).state.playIconHidden = false ∧
    (onended s).state.pauseIconHidden = true ∧
    (onended s).state.drawCalls = s.drawCalls ∧ (onended s).state.canvasLog = s.canvasLog := by
  unfold onended
  rcases hs with ⟨hf, hq⟩ | ⟨h, h0, hf, hq⟩
  · simp [hf, hq, Outcome.ok]
  · simp [hf, hq, h0, Outcome.ok, cancelAnimationFrame]

theorem handle_frameInv (host : Host) (s : State) (e : Event) (hs : FrameInv s) :
    FrameInv (handle host s e).state := by
  cases e with
  | playPauseClick => exact (togglePlayPause_loopSame host s).frameInv hs
  | playFulfilled sig =>
    simp only [handle]
    split
    · exact playThen_frameInv _ sig hs
    · exact hs
  | playRejected =>
    simp only [handle]
    split <;> exact hs
  | modeClick mode => exact (modeClick_loopSame host s mode).frameInv hs
  | volumeInput v => exact hs
  | fftSizeChange v => exact (fftSizeChange_loopSame host _).frameInv hs
  | smoothingInput v => exact (smoothingInput_loopSame host _).frameInv hs
  | sensitivityInput v => exact hs
  | lineWidthInput v => exact hs
  | progressInput v => exact hs
  | progressChange sig => exact progressChange_frameInv s sig hs
  | timeupdate position => exact (ontimeupdate_loopSame _).frameInv hs
  | ended =>
    have h := onended_stopped { s with paused := true, pendingPlay := 0 } hs
    exact Or.inl ⟨h.1, h.2.1⟩
  | fileChange => exact (fileChange_loopSame host s).frameInv hs
  | resize w h => exact hs
  | frame h sig => exact frameCallback_frameInv s h sig hs

theorem reachable_frameInv (host : Host) (s : State) (hs : Reachable host s) : FrameInv s := by
  induction hs with
  | init ui => exact Or.inl ⟨rfl, rfl⟩
  | step e _ ih => exact handle_frameInv host _ e ih

theorem step_while_stopped (host : Host) (s : State) (e : Event)
    (hf : s.frameId = none) (hq : s.rafQueue = []) :
    (step host s e).frameId ≠ none ∨ LoopSame s (step host s e) := by
  unfold step
  cases e with
  | playPauseClick => exact Or.inr (togglePlayPause_loopSame host s)
  | playFulfilled sig =>
    simp only [handle]
    split
    · left
      simp only [playThen, hf, if_true]
      exact draw_started _ sig
    · exact Or.inr (LoopSame.refl s)
  | playRejected =>
    simp only [handle]
    split
    · exact Or.inr ⟨rfl, rfl, rfl, rfl, rfl⟩
    · exact Or.inr (LoopSame.refl s)
  | modeClick mode => exact Or.inr (modeClick_loopSame host s mode)
  | volumeInput v => exact Or.inr ⟨rfl, rfl, rfl, rfl, rfl⟩
  | fftSizeChange v =>
    exact Or.inr (LoopSame.trans ⟨rfl, rfl, rfl, rfl, rfl⟩ (fftSizeChange_loopSame host _))
  | smoothingInput v =>
    exact Or.inr (LoopSame.trans ⟨rfl, rfl, rfl, rfl, rfl⟩ (smoothingInput_loopSame host _))
  | sensitivityInput v => exact Or.inr ⟨rfl, rfl, rfl, rfl, rfl⟩
  | lineWidthInput v => exact Or.inr ⟨rfl, rfl, rfl, rfl, rfl⟩
  | progressInput v => exact Or.inr ⟨rfl, rfl, rfl, rfl, rfl⟩
  | progressChange sig =>
    simp only [handle, progressChange]
    split
    · exact Or.inl (draw_started _ sig)
    · exact Or.inr ⟨rfl, rfl, rfl, rfl, rfl⟩
  | timeupdate position =>
    exact Or.inr (LoopSame.trans ⟨rfl, rfl, rfl, rfl, rfl⟩ (ontimeupdate_loopSame _))
  | ended =>
    right
    simp only [handle, onended, hf, Outcome.ok]
    exact ⟨hf.symm, rfl, rfl, rfl, rfl⟩
  | fileChange => exact Or.inr (fileChange_loopSame host s)
  | resize w h => exact Or.inr ⟨rfl, rfl, rfl, rfl, rfl⟩
  | frame h sig =>
    right
    simp only [handle, frameCallback, hq, List.not_mem_nil, if_false]
    exact LoopSame.refl s

theorem run_while_stopped (host : Host) (es : List Event) (s : State)
    (hf : s.frameId = none) (hq : s.rafQueue = [])
    (hstay : ∀ n, n ≤ es.length → (run host s (es.take n)).frameId = none) :
    LoopSame s (run host s es) := by
  induction es generalizing s with
  | nil => exact LoopSame.refl s
  | cons e es ih =>
    have h1 : (step host s e).frameId = none := by
      have := hstay 1 (by simp)
      simpa [run] using this
    have hsame : LoopSame s (step host s e) := by
      rcases step_while_stopped host s e hf hq with h | h
      · exact absurd h1 h
      · exact h
    have hq1 : (step host s e).rafQueue = [] := by rw [hsame.2.1, hq]
    have htail : ∀ n, n ≤ es.length → (run host (step host s e) (es.take n)).frameId = none := by
      intro n hn
      have := hstay (n + 1) (by simpa using hn)
      simpa [run] using this
    have := ih (step host s e) h1 hq1 htail
    exact hsame.trans (by simpa [run] using this)

/-! ## Mode selection -/

theorem modeClick_spectrogram (host : Host) (s : State) :
    modeClick host s "spectrogram" = Outcome.ok s := by
  simp [modeClick]

theorem setupAudio_animationMode (host : Host) (s : State) (fftSize : Option Int)
    (smoothing : Option ℚ) :
    (setupAudio host s fftSize smoothing).state.animationMode = s.animationMode := by
  obtain ⟨c, an, d, o, h⟩ := setupAudio_footprint host s fftSize smoothing
  rw [h]

theorem connectSource_animationMode (s : State) :
    (connectSource s).state.animationMode = s.animationMode := by
  obtain ⟨b, h⟩ := connectSource_footprint s
  rw [h]

theorem draw_animationMode (s : State) (sig : Signal) :
    (draw s sig).state.animationMode = s.animationMode := by
  obtain ⟨c, d, l, h⟩ := draw_footprint s sig
  rw [h]

theorem andThen_animationMode (s : State) (o : Outcome) (f : State → Outcome)
    (ho : o.state.animationMode = s.animationMode)
    (hf : ∀ t, (f t).state.animationMode = t.animationMode) :
    (o.andThen f).state.animationMode = s.animationMode := by
  rcases andThen_cases o f with h | h <;> rw [h]
  · exact ho
  · exact (hf _).trans ho

theorem handle_animationMode (host : Host) (s : State) (e : Event)
    (hs : s.animationMode ≠ "spectrogram") :
    (handle host s e).state.animationMode ≠ "spectrogram" := by
  cases e with
  | playPauseClick =>
    have : (togglePlayPause host s).state.animationMode = s.animationMode := by
      unfold togglePlayPause
      apply andThen_animationMode
      · split
        · exact andThen_animationMode _ _ _ (setupAudio_animationMode _ _ _ _)
            connectSource_animationMode
        · rfl
      · intro t
        split
        · rfl
        · split <;> rfl
    show (togglePlayPause host s).state.animationMode ≠ "spectrogram"
    rw [this]
    exact hs
  | playFulfilled sig =>
    simp only [handle]
    split
    · simp only [playThen]
      split
      · rw [draw_animationMode]; exact hs
      · exact hs
    · exact hs
  | playRejected =>
    simp only [handle]
    split <;> exact hs
  | modeClick mode =>
    simp only [handle, modeClick]
    split
    · exact hs
    · rename_i hmode
      split
      · rw [setupAudio_animationMode]; exact hmode
      · exact hmode
  | volumeInput v => exact hs
  | fftSizeChange v =>
    simp only [handle, fftSizeChange]
    split
    · rw [setupAudio_animationMode]; exact hs
    · exact hs
  | smoothingInput v =>
    simp only [handle, smoothingInput]
    split
    · rw [setupAudio_animationMode]; exact hs
    · exact hs
  | sensitivityInput v => exact hs
  | lineWidthInput v => exact hs
  | progressInput v => exact hs
  | progressChange sig =>
    simp only [handle, progressChange]
    split
    · rw [draw_animationMode]; exact hs
    · exact hs
  | timeupdate position =>
    simp only [handle, ontimeupdate]
    split <;> exact hs
  | ended =>
    simp only [handle, onended, Outcome.ok]
    split
    · split <;> exact hs
    · exact hs
  | fileChange =>
    simp only [handle, fileChange]
    split
    · rw [andThen_animationMode _ _ _ (setupAudio_animationMode _ _ _ _)
        connectSource_animationMode]
      exact hs
    · exact hs
  | resize w h => exact hs
  | frame h sig =>
    simp only [handle, frameCallback]
    split
    · rw [draw_animationMode]; exact hs
    · exact hs

theorem reachable_animationMode (host : Host) (s : State) (hs : Reachable host s) :
    s.animationMode ≠ "spectrogram" := by
  induction hs with
  | init ui =>
    show "waveform" ≠ "spectrogram"
    decide
  | step e _ ih => exact handle_animationMode host _ e ih

theorem drawWaveform_drawCalls (s : State) (sig : Signal) :
    (drawWaveform s sig).state.drawCalls = s.drawCalls ++ ["drawWaveform"] := by
  obtain ⟨d, l, h⟩ := drawWaveform_footprint s sig
  rw [h]

theorem drawSpectrum_drawCalls (s : State) (sig : Signal) :
    (drawSpectrum s sig).state.drawCalls = s.drawCalls ++ ["drawSpectrum"] := by
  obtain ⟨d, l, h⟩ := drawSpectrum_footprint s sig
  rw [h]

theorem draw_waveform (s : State) (sig : Signal) (hmode : s.animationMode = "waveform") :
    (draw s sig).state.drawCalls = s.drawCalls ++ ["drawWaveform"] := by
  unfold draw
  simp only [requestAnimationFrame, hmode, if_true]
  rw [drawWaveform_drawCalls]

theorem draw_spectrum (s : State) (sig : Signal) (hmode : s.animationMode = "spectrum") :
    (draw s sig).state.drawCalls = s.drawCalls ++ ["drawSpectrum"] := by
  have hne : ¬ ("spectrum" = "waveform") := by decide
  unfold draw
  simp only [requestAnimationFrame, hmode, hne, if_true, if_false]
  rw [drawSpectrum_drawCalls]

theorem frameCallback_waveform (s : State) (h : Nat) (sig : Signal) (hmem : h ∈ s.rafQueue)
    (hmode : s.animationMode = "waveform") :
    (frameCallback s h sig).state.drawCalls = s.drawCalls ++ ["drawWaveform"] := by
  simp only [frameCallback, hmem, if_true]
  exact draw_waveform _ sig hmode

theorem frameCallback_spectrum (s : State) (h : Nat) (sig : Signal) (hmem : h ∈ s.rafQueue)
    (hmode : s.animationMode = "spectrum") :
    (frameCallback s h sig).state.drawCalls = s.drawCalls ++ ["drawSpectrum"] := by
  simp only [frameCallback, hmem, if_true]
  exact draw_spectrum _ sig hmode

theorem frameCallback_other (s : State) (h : Nat) (sig : Signal)
    (hw : s.animationMode ≠ "waveform") (hsp : s.animationMode ≠ "spectrum") :
    (frameCallback s h sig).error = none ∧
    (frameCallback s h sig).state.drawCalls = s.drawCalls ∧
    (frameCallback s h sig).state.canvasLog = s.canvasLog := by
  unfold frameCallback
  split
  · simp [draw, requestAnimationFrame, hw, hsp, Outcome.ok]
  · simp [Outcome.ok]

theorem togglePlayPause_first (host : Host) (s : State) (R : Int) (v : ℚ)
    (hctx : s.audioCtx = false) (hhost : host.audioContextAvailable = true)
    (hf : s.ui.fftSizeValue = some R) (hR : supportedFftSize R = true)
    (hv : s.ui.smoothingValue = some v) (hv01 : 0 ≤ v ∧ v ≤ 1) (hp : s.paused = true) :
    togglePlayPause host s =
      Outcome.ok { s with
        audioCtx := true,
        analyser := some { fftSize := R.toNat, smoothingTimeConstant := v },
        dataArray := some (List.replicate R.toNat 0),
        source := true, paused := false, pendingPlay := s.pendingPlay + 1 } := by
  unfold togglePlayPause
  rw [if_pos hctx, hf, hv, setupAudio_valid host s R v hR hv01 (Or.inr hhost)]
  simp [Outcome.andThen, Outcome.ok, connectSource, hp]

theorem draw_rafQueue (s : State) (sig : Signal) :
    (draw s sig).state.rafQueue = s.rafQueue ++ [s.rafCounter + 1] := by
  obtain ⟨c, d, l, h⟩ := draw_footprint s sig
  rw [h]

theorem draw_frameId (s : State) (sig : Signal) :
    (draw s sig).state.frameId = some (s.rafCounter + 1) := by
  obtain ⟨c, d, l, h⟩ := draw_footprint s sig
  rw [h]

theorem playFulfilled_starts (host : Host) (s : State) (sig : Signal)
    (hp : 0 < s.pendingPlay) (hf : s.frameId = none) :
    step host s (Event.playFulfilled sig) =
      (draw { s with pendingPlay := s.pendingPlay - 1, pauseIconHidden := false,
                     playIconHidden := true } sig).state := by
  simp [step, handle, playThen, hp, hf]

theorem demoPlaying_facts :
    demoPlaying.animationMode = "waveform" ∧ demoPlaying.rafQueue = [1] ∧
    demoPlaying.frameId = some 1 ∧ demoPlaying.drawCalls = ["drawWaveform"] := by
  have h0 : demoPlaying =
      step demoHost (step demoHost (initialState demoControls) Event.playPauseClick)
        (Event.playFulfilled silence) := rfl
  have h1 : step demoHost (initialState demoControls) Event.playPauseClick = _ :=
    congrArg Outcome.state
      (togglePlayPause_first demoHost (initialState demoControls) 32 (1 / 2) rfl rfl rfl
        (by decide) rfl (by norm_num) rfl)
  rw [h0, h1, playFulfilled_starts _ _ _ (Nat.succ_pos _) rfl]
  refine ⟨?_, ?_, ?_, ?_⟩
  · rw [draw_animationMode]
    rfl
  · rw [draw_rafQueue]
    rfl
  · rw [draw_frameId]
    rfl
  · rw [draw_waveform _ _ rfl]
    rfl

/-! ## The resolution stays supported -/

theorem setFftSize_ok (a a1 : Analyser) (v : Option Int) (c : Prop) [Decidable c]
    (ha : supportedFftSize (a.fftSize : Int) = true)
    (h : (if c then a.setFftSize v else .ok a) = .ok a1) :
    supportedFftSize (a1.fftSize : Int) = true := by
  by_cases hc : c
  · rw [if_pos hc] at h
    unfold Analyser.setFftSize at h
    cases v with
    | none => simp at h
    | some n =>
      by_cases hn : supportedFftSize n = true
      · simp only [hn, if_true, Except.ok.injEq] at h
        rw [← h]
        show supportedFftSize ((n.toNat : Nat) : Int) = true
        rw [supportedFftSize_toNat n hn]
        exact hn
      · simp [hn] at h
  · rw [if_neg hc] at h
    cases h
    exact ha

theorem setSmoothing_ok (a a2 : Analyser) (v : Option ℚ) (c : Prop) [Decidable c]
    (h : (if c then a.setSmoothingTimeConstant v else .ok a) = .ok a2) :
    a2.fftSize = a.fftSize := by
  by_cases hc : c
  · rw [if_pos hc] at h
    unfold Analyser.setSmoothingTimeConstant at h
    cases v with
    | none => simp at h
    | some x =>
      by_cases hx : 0 ≤ x ∧ x ≤ 1
      · simp only [hx, and_self, if_true, Except.ok.injEq] at h
        rw [← h]
      · simp [hx] at h
  · rw [if_neg hc] at h
    cases h
    rfl

theorem setupAudio_analyserOk (host : Host) (s : State) (fftSize : Option Int)
    (smoothing : Option ℚ) (hs : AnalyserOk s) :
    AnalyserOk (setupAudio host s fftSize smoothing).state := by
  have h0 : supportedFftSize ((match s.analyser with
      | some a => a
      | none => createAnalyser).fftSize : Int) = true := by
    cases ha : s.analyser with
    | none => decide
    | some a => exact hs a ha
  unfold setupAudio
  split
  · exact hs
  · simp only
    split
    · intro a ha
      simp only [Option.some.injEq] at ha
      rw [← ha]
      exact h0
    · rename_i a1 h1
      have hok1 := setFftSize_ok _ a1 _ _ h0 h1
      split
      · intro a ha
        simp only [Option.some.injEq] at ha
        rw [← ha]
        exact hok1
      · rename_i a2 h2
        have hok2 := setSmoothing_ok _ a2 _ _ h2
        intro a ha
        simp only [Outcome.ok, Option.some.injEq] at ha
        rw [← ha, hok2]
        exact hok1

theorem connectSource_analyser (s : State) :
    (connectSource s).state.analyser = s.analyser := by
  obtain ⟨b, h⟩ := connectSource_footprint s
  rw [h]

theorem draw_analyser (s : State) (sig : Signal) :
    (draw s sig).state.analyser = s.analyser := by
  obtain ⟨c, d, l, h⟩ := draw_footprint s sig
  rw [h]

theorem andThen_inv (P : State → Prop) (o : Outcome) (f : State → Outcome)
    (ho : P o.state) (hf : ∀ t, P t → P (f t).state) : P (o.andThen f).state := by
  rcases andThen_cases o f with h | h <;> rw [h]
  · exact ho
  · exact hf _ ho

theorem connectSource_analyserOk (s : State) (hs : AnalyserOk s) :
    AnalyserOk (connectSource s).state := by
  intro a ha
  rw [connectSource_analyser] at ha
  exact hs a ha

theorem andThen_connectSource_analyserOk (o : Outcome) (ho : AnalyserOk o.state) :
    AnalyserOk (o.andThen connectSource).state :=
  andThen_inv AnalyserOk o connectSource ho connectSource_analyserOk

theorem handle_analyserOk (host : Host) (s : State) (e : Event) (hs : AnalyserOk s) :
    AnalyserOk (handle host s e).state := by
  cases e with
  | playPauseClick =>
    show AnalyserOk (togglePlayPause host s).state
    unfold togglePlayPause
    apply andThen_inv AnalyserOk
    · split
      · exact andThen_connectSource_analyserOk _ (setupAudio_analyserOk _ _ _ _ hs)
      · exact hs
    · intro t ht
      split
      · exact ht
      · split <;> exact ht
  | playFulfilled sig =>
    simp only [handle]
    split
    · simp only [playThen]
      split
      · intro a ha
        rw [draw_analyser] at ha
        exact hs a ha
      · exact hs
    · exact hs
  | playRejected =>
    simp only [handle]
    split <;> exact hs
  | modeClick mode =>
    simp only [handle, modeClick]
    split
    · exact hs
    · split
      · exact setupAudio_analyserOk _ _ _ _ hs
      · exact hs
  | volumeInput v => exact hs
  | fftSizeChange v =>
    simp only [handle, fftSizeChange]
    split
    · exact setupAudio_analyserOk _ _ _ _ hs
    · exact hs
  | smoothingInput v =>
    simp only [handle, smoothingInput]
    split
    · exact setupAudio_analyserOk _ _ _ _ hs
    · exact hs
  | sensitivityInput v => exact hs
  | lineWidthInput v => exact hs
  | progressInput v => exact hs
  | progressChange sig =>
    simp only [handle, progressChange]
    split
    · intro a ha
      rw [draw_analyser] at ha
      exact hs a ha
    · exact hs
  | timeupdate position =>
    simp only [handle, ontimeupdate]
    split <;> exact hs
  | ended =>
    simp only [handle, onended, Outcome.ok]
    split
    · split <;> exact hs
    · exact hs
  | fileChange =>
    simp only [handle, fileChange]
    split
    · exact andThen_connectSource_analyserOk _ (setupAudio_analyserOk _ _ _ _ hs)
    · exact hs
  | resize w h => exact hs
  | frame h sig =>
    simp only [handle, frameCallback]
    split
    · intro a ha
      rw [draw_analyser] at ha
      exact hs a ha
    · exact hs

theorem reachable_analyserOk (host : Host) (s : State) (hs : Reachable host s) :
    AnalyserOk s := by
  induction hs with
  | init ui =>
    intro a ha
    exact absurd ha (by simp [initialState])
  | step e _ ih => exact handle_analyserOk host _ e ih

theorem setSmoothing_result (n : Nat) (v0 : ℚ) (a2 : Analyser) (v : Option ℚ)
    (h : (if some v0 ≠ v then
            Analyser.setSmoothingTimeConstant { fftSize := n, smoothingTimeConstant := v0 } v
          else .ok { fftSize := n, smoothingTimeConstant := v0 }) = .ok a2) :
    a2.fftSize = n ∧ some a2.smoothingTimeConstant = v := by
  by_cases hc : some v0 = v
  · rw [if_neg (not_not.mpr hc)] at h
    cases h
    exact ⟨rfl, hc⟩
  · rw [if_pos hc] at h
    unfold Analyser.setSmoothingTimeConstant at h
    cases v with
    | none => simp at h
    | some x =>
      by_cases hx : 0 ≤ x ∧ x ≤ 1
      · simp only [hx, and_self, if_true, Except.ok.injEq] at h
        rw [← h]
        exact ⟨rfl, rfl⟩
      · simp [hx] at h

theorem setupAudio_completed (host : Host) (s : State) (R : Int) (smoothing : Option ℚ)
    (hR : supportedFftSize R = true)
    (hctx : s.audioCtx = true ∨ host.audioContextAvailable = true)
    (herr : (setupAudio host s (some R) smoothing).error = none) :
    ∃ v : ℚ, smoothing = some v ∧
      setupAudio host s (some R) smoothing =
        Outcome.ok { s with
          audioCtx := true,
          analyser := some { fftSize := R.toNat, smoothingTimeConstant := v },
          dataArray := some (List.replicate R.toNat 0) } := by
  have hnot : ¬ (s.audioCtx = false ∧ host.audioContextAvailable = false) := by
    rintro ⟨h1, h2⟩
    rcases hctx with h | h
    · rw [h1] at h; exact Bool.noConfusion h
    · rw [h2] at h; exact Bool.noConfusion h
  unfold setupAudio at herr ⊢
  rw [if_neg hnot] at herr ⊢
  simp only [setFftSize_if_changed _ R hR] at herr ⊢
  split at herr
  · simp at herr
  · rename_i a2 h2
    obtain ⟨hfft, hsm⟩ := setSmoothing_result _ _ a2 _ h2
    refine ⟨a2.smoothingTimeConstant, hsm.symm, ?_⟩
    cases a2
    simp only at hfft
    subst hfft
    rfl

/-! ## A run of the page -/

theorem demoPlaying_analyser :
    demoPlaying.analyser = some { fftSize := 32, smoothingTimeConstant := 1 / 2 } := by
  have h0 : demoPlaying =
      step demoHost (step demoHost (initialState demoControls) Event.playPauseClick)
        (Event.playFulfilled silence) := rfl
  have h1 : step demoHost (initialState demoControls) Event.playPauseClick = _ :=
    congrArg Outcome.state
      (togglePlayPause_first demoHost (initialState demoControls) 32 (1 / 2) rfl rfl rfl
        (by decide) rfl (by norm_num) rfl)
  rw [h0, h1, playFulfilled_starts _ _ _ (Nat.succ_pos _) rfl, draw_analyser]
  rfl

theorem demoPlaying_reachable : Reachable demoHost demoPlaying :=
  Reachable.step (Event.playFulfilled silence)
    (Reachable.step Event.playPauseClick (Reachable.init demoControls))

/-! ## The claims -/

/-- C1: `drawWaveform` on a flat snapshot.  When the analyser delivers the byte
128 for each of the `fftSize` samples, the call succeeds and every ordinate it
hands to `moveTo` / `lineTo` (one per sample, then the closing point) is
`height / 2`, whatever the width, the height and the sensitivity are. -/
theorem drawWaveform_flat_snapshot (s : State) (a : Analyser) (d : List Nat) (sig : Signal)
    (ha : s.analyser = some a) (hd : s.dataArray = some d) (hlen : a.fftSize ≤ d.length)
    (hflat : ∀ i, i < a.fftSize → sig.timeDomain i = 128) :
    (drawWaveform s sig).error = none ∧
    pathYs ((drawWaveform s sig).newOps s) =
      List.replicate (a.fftSize + 1) (some (s.ui.clientHeight / 2)) := by
  refine ⟨(drawWaveform_eq s a d sig ha hd).1, ?_⟩
  rw [pathYs_eq_map_pathOps, drawWaveform_pathOps s a d sig ha hd,
    waveformPath_eq _ _ _ _ _ sig.timeDomain
      (fun i hi => getByteTimeDomainData_getElem? a sig d i hi hlen)]
  have hmap : ∀ (l : List Nat), (∀ i ∈ l, sig.timeDomain i = 128) →
      pathYs (l.map (fun (i : Nat) =>
        (if i = 0 then CanvasOp.moveTo else CanvasOp.lineTo)
          ((i : ℚ) * (s.ui.clientWidth / (a.fftSize : ℚ)))
          (some (s.ui.clientHeight / 2 +
            ((sig.timeDomain i : ℚ) / 128 - 1) * (s.ui.clientHeight / 2) * s.ui.sensitivity)))) =
      List.replicate l.length (some (s.ui.clientHeight / 2)) := by
    intro l
    induction l with
    | nil => intro _; rfl
    | cons i l ih =>
      intro hl
      have hi : sig.timeDomain i = 128 := hl i (List.mem_cons_self _ _)
      have ih2 := ih (fun j hj => hl j (List.mem_cons_of_mem _ hj))
      simp only [pathYs] at ih2 ⊢
      by_cases h0 : i = 0 <;>
        simp [h0, hi, List.filterMap_cons, List.replicate_succ, ih2]
      rw [h0] at hi
      simp [hi]
  have hall : ∀ i ∈ List.range a.fftSize, sig.timeDomain i = 128 :=
    fun i hi => hflat i (List.mem_range.mp hi)
  have hsplit : ∀ (xs ys : List CanvasOp), pathYs (xs ++ ys) = pathYs xs ++ pathYs ys := by
    intro xs ys
    simp [pathYs]
  rw [hsplit, hmap _ hall, List.length_range, List.replicate_succ']
  rfl

/-- Witness of C1: 32 samples of silence on a 400 by 300 canvas give 33 points
at ordinate 150. -/
theorem drawWaveform_flat_snapshot_witness :
    (drawWaveform demoState silence).error = none ∧
    pathYs ((drawWaveform demoState silence).newOps demoState) =
      List.replicate (32 + 1) (some (demoState.ui.clientHeight / 2)) :=
  drawWaveform_flat_snapshot demoState { fftSize := 32, smoothingTimeConstant := 1 / 2 }
    (List.replicate 32 0) silence rfl rfl (by decide) (fun _ _ => rfl)

/-- C2: bar heights of `drawSpectrum`.  The call succeeds, paints the
background with three calls and then draws `min(256, fftSize / 2)` bars.  When
every magnitude the analyser delivers is 0 each bar has height 0, for any
sensitivity; when every magnitude is 255 and the sensitivity is 1 each bar has
the height of the canvas. -/
theorem drawSpectrum_bar_heights (s : State) (a : Analyser) (d : List Nat) (sig : Signal)
    (ha : s.analyser = some a) (hd : s.dataArray = some d)
    (hlen : a.frequencyBinCount ≤ d.length) :
    (drawSpectrum s sig).error = none ∧
    ((∀ i, i < a.frequencyBinCount → sig.frequency i = 0) →
      barHeights (((drawSpectrum s sig).newOps s).drop 3) =
        List.replicate (min 256 (a.fftSize / 2)) (some 0)) ∧
    ((∀ i, i < a.frequencyBinCount → sig.frequency i = 255) → s.ui.sensitivity = 1 →
      barHeights (((drawSpectrum s sig).newOps s).drop 3) =
        List.replicate (min 256 (a.fftSize / 2)) (some s.ui.clientHeight)) := by
  have hops : ((drawSpectrum s sig).newOps s).drop 3 =
      spectrumBars s.ui.clientWidth s.ui.clientHeight s.ui.sensitivity s.ui.lineWidth
        a.frequencyBinCount (a.getByteFrequencyData sig d) := by
    unfold Outcome.newOps
    rw [(drawSpectrum_eq s a d sig ha hd).2, List.drop_left]
    rfl
  have hbar : ∀ (v : Nat) (y : ℚ),
      (∀ i, i < a.frequencyBinCount → sig.frequency i = v) →
      ((v : ℚ) / 255) * s.ui.clientHeight * s.ui.sensitivity = y →
      barHeights (((drawSpectrum s sig).newOps s).drop 3) =
        List.replicate (min 256 (a.fftSize / 2)) (some y) := by
    intro v y hv hy
    rw [hops, spectrumBars_barHeights, List.eq_replicate_iff]
    refine ⟨by simp [Analyser.frequencyBinCount], ?_⟩
    intro h hh
    obtain ⟨i, hi, rfl⟩ := List.mem_map.mp hh
    have hi2 : i < a.frequencyBinCount :=
      lt_of_lt_of_le (List.mem_range.mp hi) (Nat.min_le_right _ _)
    simp only [barHeight, getByteFrequencyData_getElem? a sig d i hi2 hlen, Option.map_some',
      hv i hi2, hy]
  refine ⟨(drawSpectrum_eq s a d sig ha hd).1, ?_, ?_⟩
  · intro h0
    exact hbar 0 0 h0 (by simp)
  · intro h255 hsens
    exact hbar 255 s.ui.clientHeight h255 (by rw [hsens]; norm_num)

/-- Witness of C2: 32 samples give 16 bars on the 400 by 300 canvas, all of
height 0 for silence, all of height 300 for a full-scale spectrum at
sensitivity 1. -/
theorem drawSpectrum_bar_heights_witness :
    barHeights (((drawSpectrum demoState silence).newOps demoState).drop 3) =
      List.replicate (min 256 (32 / 2)) (some 0) ∧
    barHeights (((drawSpectrum demoUnit fullScale).newOps demoUnit).drop 3) =
      List.replicate (min 256 (32 / 2)) (some demoUnit.ui.clientHeight) :=
  ⟨(drawSpectrum_bar_heights demoState { fftSize := 32, smoothingTimeConstant := 1 / 2 }
      (List.replicate 32 0) silence rfl rfl (by decide)).2.1 (fun _ _ => rfl),
   (drawSpectrum_bar_heights demoUnit { fftSize := 32, smoothingTimeConstant := 1 / 2 }
      (List.replicate 32 0) fullScale rfl rfl (by decide)).2.2 (fun _ _ => rfl) rfl⟩

/-- C3: point mapping of `drawWaveform`.  With `R = fftSize` samples delivered
by the analyser, the path calls of one `drawWaveform` are, in index order, the
`R` points `(i * (width / R), height / 2 + (sample i / 128 - 1) * (height / 2) *
sensitivity)` (the first by `moveTo`, the others by `lineTo`; the abscissa the
loop accumulates equals the product) followed by `lineTo(width, height / 2)`. -/
theorem drawWaveform_point_mapping (s : State) (a : Analyser) (d : List Nat) (sig : Signal)
    (ha : s.analyser = some a) (hd : s.dataArray = some d) (hlen : a.fftSize ≤ d.length) :
    (drawWaveform s sig).error = none ∧
    pathOps ((drawWaveform s sig).newOps s) =
      (List.range a.fftSize).map (fun (i : Nat) =>
        (if i = 0 then CanvasOp.moveTo else CanvasOp.lineTo)
          ((i : ℚ) * (s.ui.clientWidth / (a.fftSize : ℚ)))
          (some (s.ui.clientHeight / 2 +
            ((sig.timeDomain i : ℚ) / 128 - 1) * (s.ui.clientHeight / 2) * s.ui.sensitivity))) ++
      [CanvasOp.lineTo s.ui.clientWidth (some (s.ui.clientHeight / 2))] := by
  refine ⟨(drawWaveform_eq s a d sig ha hd).1, ?_⟩
  rw [drawWaveform_pathOps s a d sig ha hd]
  exact waveformPath_eq _ _ _ _ _ sig.timeDomain
    (fun i hi => getByteTimeDomainData_getElem? a sig d i hi hlen)

/-- Witness of C3: 32 full-scale samples on the 400 by 300 canvas with
sensitivity 2. -/
theorem drawWaveform_point_mapping_witness :
    (drawWaveform demoState fullScale).error = none ∧
    pathOps ((drawWaveform demoState fullScale).newOps demoState) =
      (List.range 32).map (fun (i : Nat) =>
        (if i = 0 then CanvasOp.moveTo else CanvasOp.lineTo)
          ((i : ℚ) * (demoState.ui.clientWidth / ((32 : Nat) : ℚ)))
          (some (demoState.ui.clientHeight / 2 +
            ((fullScale.timeDomain i : ℚ) / 128 - 1) * (demoState.ui.clientHeight / 2) *
              demoState.ui.sensitivity))) ++
      [CanvasOp.lineTo demoState.ui.clientWidth (some (demoState.ui.clientHeight / 2))] :=
  drawWaveform_point_mapping demoState { fftSize := 32, smoothingTimeConstant := 1 / 2 }
    (List.replicate 32 0) fullScale rfl rfl (by decide)

/-- C4: snapshot lengths after configuration.  Let `R` be a supported
resolution (a power of two from 32 to 32768) and let the audio context exist or
be constructible.  For every smoothing in `[0, 1]` the call
`setupAudio(R, smoothing)` completes, and for every smoothing whatsoever a call
that completes leaves an analyser of FFT size `R` and a buffer of length `R`.
From then on the time-domain snapshot of a frame fills the whole buffer, so it
has length `R`, and the frequency-domain snapshot has length `R / 2`. -/
theorem setupAudio_snapshot_lengths (host : Host) (s : State) (R : Int)
    (smoothing : Option ℚ) (hR : supportedFftSize R = true)
    (hctx : s.audioCtx = true ∨ host.audioContextAvailable = true) :
    (∀ v : ℚ, smoothing = some v → 0 ≤ v → v ≤ 1 →
      (setupAudio host s (some R) smoothing).error = none) ∧
    ((setupAudio host s (some R) smoothing).error = none →
      ∃ (a : Analyser) (d : List Nat),
        (setupAudio host s (some R) smoothing).state.analyser = some a ∧
        (setupAudio host s (some R) smoothing).state.dataArray = some d ∧
        (a.fftSize : Int) = R ∧ some a.smoothingTimeConstant = smoothing ∧
        (d.length : Int) = R ∧
        ∀ sig : Signal,
          ((timeDomainSnapshot a sig d).length : Int) = R ∧
          timeDomainSnapshot a sig d = a.getByteTimeDomainData sig d ∧
          ((frequencySnapshot a sig d).length : Int) = R / 2) := by
  constructor
  · intro v hv h0 h1
    rw [hv, setupAudio_valid host s R v hR ⟨h0, h1⟩ hctx]
    rfl
  · intro herr
    obtain ⟨v, hv, heq⟩ := setupAudio_completed host s R smoothing hR hctx herr
    rw [heq]
    have hn := supportedFftSize_toNat R hR
    refine ⟨{ fftSize := R.toNat, smoothingTimeConstant := v },
      List.replicate R.toNat 0, rfl, rfl, hn, hv.symm, by simpa using hn, ?_⟩
    intro sig
    have hlen : (Analyser.getByteTimeDomainData
        { fftSize := R.toNat, smoothingTimeConstant := v } sig
        (List.replicate R.toNat 0)).length = R.toNat := by
      simp [Analyser.getByteTimeDomainData]
    refine ⟨?_, ?_, ?_⟩
    · simp only [timeDomainSnapshot, List.length_take, List.length_replicate, hlen,
        Nat.min_self]
      exact hn
    · simp only [timeDomainSnapshot, List.length_replicate, Nat.min_self]
      rw [List.take_of_length_le (by rw [hlen])]
    · have hhalf : (Analyser.getByteFrequencyData
          { fftSize := R.toNat, smoothingTimeConstant := v } sig
          (List.replicate R.toNat 0)).length = R.toNat := by
        simp [Analyser.getByteFrequencyData, Analyser.frequencyBinCount]
      simp only [frequencySnapshot, List.length_take, List.length_replicate, hhalf,
        Analyser.frequencyBinCount]
      omega

/-- Witness of C4: `setupAudio(64, 1/2)` on the configured demo page completes
and leaves snapshots of 64 and 32 entries. -/
theorem setupAudio_snapshot_lengths_witness :
    (setupAudio demoHost demoState (some 64) (some (1 / 2))).error = none ∧
    ∃ (a : Analyser) (d : List Nat),
      (setupAudio demoHost demoState (some 64) (some (1 / 2))).state.analyser = some a ∧
      (setupAudio demoHost demoState (some 64) (some (1 / 2))).state.dataArray = some d ∧
      (a.fftSize : Int) = 64 ∧ some a.smoothingTimeConstant = some (1 / 2) ∧
      (d.length : Int) = 64 ∧
      ∀ sig : Signal,
        ((timeDomainSnapshot a sig d).length : Int) = 64 ∧
        timeDomainSnapshot a sig d = a.getByteTimeDomainData sig d ∧
        ((frequencySnapshot a sig d).length : Int) = 64 / 2 :=
  ⟨(setupAudio_snapshot_lengths demoHost demoState 64 (some (1 / 2)) (by decide)
      (Or.inl rfl)).1 (1 / 2) rfl (by norm_num) (by norm_num),
   (setupAudio_snapshot_lengths demoHost demoState 64 (some (1 / 2)) (by decide)
      (Or.inl rfl)).2
     ((setupAudio_snapshot_lengths demoHost demoState 64 (some (1 / 2)) (by decide)
        (Or.inl rfl)).1 (1 / 2) rfl (by norm_num) (by norm_num))⟩

/-- C5: an invalid reconfiguration is rejected with no change.  In a state with
an audio context and an analyser of supported FFT size, `setupAudio` called
with a resolution that is not a supported power of two (or is `NaN`) throws
`IndexSizeError` out of the `fftSize` assignment and leaves the whole state as
it was: resolution, smoothing, buffer and its length.  Hence in every reachable
state the resolution of the analyser is a power of two from `2^5` to `2^15`. -/
theorem setupAudio_rejects_invalid_resolution (host : Host) :
    (∀ (s : State) (a : Analyser) (fftSize : Option Int) (smoothing : Option ℚ),
      s.audioCtx = true → s.analyser = some a →
      supportedFftSize (a.fftSize : Int) = true →
      (∀ n, fftSize = some n → supportedFftSize n = false) →
      setupAudio host s fftSize smoothing =
        { state := s, error := some "IndexSizeError" }) ∧
    (∀ (s : State) (a : Analyser), Reachable host s → s.analyser = some a →
      ∃ k : Nat, 5 ≤ k ∧ k ≤ 15 ∧ a.fftSize = 2 ^ k) := by
  constructor
  · intro s a fftSize smoothing hctx ha hvalid hbad
    exact setupAudio_invalid host s a fftSize smoothing hctx ha hvalid hbad
  · intro s a hs ha
    obtain ⟨k, h5, h15, hk⟩ :=
      (supportedFftSize_iff _).mp (reachable_analyserOk host s hs a ha)
    exact ⟨k, h5, h15, by exact_mod_cast hk⟩

/-- Witness of C5: `setupAudio(100, 1/4)` on the configured demo page is
rejected and the page is as before; the analyser of the playing demo page has
size `2^k` for some `k` from 5 to 15. -/
theorem setupAudio_rejects_invalid_resolution_witness :
    setupAudio demoHost demoState (some 100) (some (1 / 4)) =
      { state := demoState, error := some "IndexSizeError" } ∧
    ∃ k : Nat, 5 ≤ k ∧ k ≤ 15 ∧ 32 = 2 ^ k :=
  ⟨(setupAudio_rejects_invalid_resolution demoHost).1 demoState
      { fftSize := 32, smoothingTimeConstant := 1 / 2 } (some 100) (some (1 / 4)) rfl rfl
      (by decide) (fun n hn => by cases hn; decide),
   (setupAudio_rejects_invalid_resolution demoHost).2 demoPlaying
      { fftSize := 32, smoothingTimeConstant := 1 / 2 } demoPlaying_reachable
      demoPlaying_analyser⟩

/-- C6: a single outstanding frame request.  In every reachable state (any
sequence of events of the page: play/pause clicks, settled `play()` promises,
seek commits, frame callbacks, `ended` and all the others) at most one
animation-frame request is outstanding, `frameId` is non-null exactly when one
is, and then `frameId` is its handle.  A start attempt (the `then` callback of
`play()`, the seek commit) made while `frameId` is non-null requests nothing. -/
theorem single_outstanding_frame_request (host : Host) :
    (∀ s, Reachable host s →
      s.rafQueue.length ≤ 1 ∧ (s.frameId ≠ none ↔ s.rafQueue ≠ []) ∧
      ∀ h, s.frameId = some h → s.rafQueue = [h]) ∧
    (∀ (s : State) (sig : Signal), s.frameId ≠ none →
      (playThen s sig).state.rafQueue = s.rafQueue ∧
      (playThen s sig).state.frameId = s.frameId ∧
      (progressChange s sig).state.rafQueue = s.rafQueue ∧
      (progressChange s sig).state.frameId = s.frameId) := by
  constructor
  · intro s hs
    rcases reachable_frameInv host s hs with ⟨hf, hq⟩ | ⟨h, _, hf, hq⟩
    · simp [hf, hq]
    · simp [hf, hq]
  · intro s sig hne
    simp [playThen, progressChange, hne, Outcome.ok]

/-- Witness of C6: after a click on play and the fulfilment of its promise the
loop runs with one request outstanding, and a second start attempt requests
nothing. -/
theorem single_outstanding_frame_request_witness :
    (demoPlaying.rafQueue.length ≤ 1 ∧ (demoPlaying.frameId ≠ none ↔ demoPlaying.rafQueue ≠ []) ∧
      ∀ h, demoPlaying.frameId = some h → demoPlaying.rafQueue = [h]) ∧
    ((playThen demoPlaying silence).state.rafQueue = demoPlaying.rafQueue ∧
      (playThen demoPlaying silence).state.frameId = demoPlaying.frameId ∧
      (progressChange demoPlaying silence).state.rafQueue = demoPlaying.rafQueue ∧
      (progressChange demoPlaying silence).state.frameId = demoPlaying.frameId) :=
  ⟨(single_outstanding_frame_request demoHost).1 demoPlaying demoPlaying_reachable,
   (single_outstanding_frame_request demoHost).2 demoPlaying silence
     (by rw [demoPlaying_facts.2.2.1]; exact Option.some_ne_none 1)⟩

/-- C7: `ended` stops the loop.  In a reachable state the `ended` handler
cancels the outstanding frame request, if any, and sets `frameId` to null; the
position is 0, the play icon is shown and the pause icon is hidden.  After it
no frame callback runs (the scheduler has nothing outstanding), and as long as
`frameId` stays null, that is until the loop is started again, no event calls
`drawWaveform` or `drawSpectrum` or touches the canvas. -/
theorem ended_stops_render_loop (host : Host) (s : State) (hs : Reachable host s) :
    (step host s Event.ended).frameId = none ∧
    (step host s Event.ended).rafQueue = [] ∧
    (step host s Event.ended).currentTime = 0 ∧
    (step host s Event.ended).playIconHidden = false ∧
    (step host s Event.ended).pauseIconHidden = true ∧
    (∀ (h : Nat) (sig : Signal),
      handle host (step host s Event.ended) (Event.frame h sig) =
        Outcome.ok (step host s Event.ended)) ∧
    (∀ es : List Event,
      (∀ n, n ≤ es.length →
        (run host (step host s Event.ended) (es.take n)).frameId = none) →
      (run host (step host s Event.ended) es).drawCalls = (step host s Event.ended).drawCalls ∧
      (run host (step host s Event.ended) es).canvasLog =
        (step host s Event.ended).canvasLog) := by
  have hinv : FrameInv { s with paused := true, pendingPlay := 0 } := reachable_frameInv host s hs
  have h := onended_stopped { s with paused := true, pendingPlay := 0 } hinv
  have hstep : step host s Event.ended =
      (onended { s with paused := true, pendingPlay := 0 }).state := rfl
  rw [hstep]
  refine ⟨h.1, h.2.1, h.2.2.1, h.2.2.2.1, h.2.2.2.2.1, ?_, ?_⟩
  · intro k sig
    simp only [handle, frameCallback, h.2.1, List.not_mem_nil, if_false]
  · intro es hstay
    have := run_while_stopped host es _ h.1 h.2.1 hstay
    exact ⟨this.2.2.2.1, this.2.2.2.2⟩

/-- Witness of C7: `ended` while the loop runs, after play was clicked and
fulfilled. -/
theorem ended_stops_render_loop_witness :
    (step demoHost demoPlaying Event.ended).frameId = none ∧
    (step demoHost demoPlaying Event.ended).rafQueue = [] ∧
    (step demoHost demoPlaying Event.ended).currentTime = 0 ∧
    (step demoHost demoPlaying Event.ended).playIconHidden = false ∧
    (step demoHost demoPlaying Event.ended).pauseIconHidden = true :=
  ⟨(ended_stops_render_loop demoHost demoPlaying demoPlaying_reachable).1,
   (ended_stops_render_loop demoHost demoPlaying demoPlaying_reachable).2.1,
   (ended_stops_render_loop demoHost demoPlaying demoPlaying_reachable).2.2.1,
   (ended_stops_render_loop demoHost demoPlaying demoPlaying_reachable).2.2.2.1,
   (ended_stops_render_loop demoHost demoPlaying demoPlaying_reachable).2.2.2.2.1⟩

/-- C8, counterexample: the loop runs in waveform mode, the user selects
spectrogram, and the next frame callback still calls `drawWaveform`. -/
theorem spectrogram_selection_counterexample :
    (handle demoHost (step demoHost demoPlaying (Event.modeClick "spectrogram"))
        (Event.frame 1 silence)).state.drawCalls =
      (step demoHost demoPlaying (Event.modeClick "spectrogram")).drawCalls ++
        ["drawWaveform"] := by
  have hsame : step demoHost demoPlaying (Event.modeClick "spectrogram") = demoPlaying := by
    show (modeClick demoHost demoPlaying "spectrogram").state = demoPlaying
    rw [modeClick_spectrogram]
    rfl
  rw [hsame]
  exact frameCallback_waveform demoPlaying 1 silence
    (by rw [demoPlaying_facts.2.1]; simp) demoPlaying_facts.1

/-- C8, amended: selecting spectrogram raises no error and changes nothing, so
a frame callback after the selection does what it would have done without it:
it calls `drawWaveform` when `animationMode` is `waveform` and `drawSpectrum`
when it is `spectrum`.  It draws nothing only when `animationMode` is neither,
and `animationMode` is never `spectrogram` in a reachable state. -/
theorem spectrogram_selection_is_ignored (host : Host) (s : State) :
    modeClick host s "spectrogram" = Outcome.ok s ∧
    (∀ (h : Nat) (sig : Signal),
      handle host (step host s (Event.modeClick "spectrogram")) (Event.frame h sig) =
        handle host s (Event.frame h sig)) ∧
    (∀ (h : Nat) (sig : Signal), h ∈ s.rafQueue → s.animationMode = "waveform" →
      (handle host s (Event.frame h sig)).state.drawCalls = s.drawCalls ++ ["drawWaveform"]) ∧
    (∀ (h : Nat) (sig : Signal), h ∈ s.rafQueue → s.animationMode = "spectrum" →
      (handle host s (Event.frame h sig)).state.drawCalls = s.drawCalls ++ ["drawSpectrum"]) ∧
    (∀ (h : Nat) (sig : Signal), s.animationMode ≠ "waveform" → s.animationMode ≠ "spectrum" →
      (handle host s (Event.frame h sig)).error = none ∧
      (handle host s (Event.frame h sig)).state.drawCalls = s.drawCalls ∧
      (handle host s (Event.frame h sig)).state.canvasLog = s.canvasLog) ∧
    (Reachable host s → s.animationMode ≠ "spectrogram") := by
  have hsame : step host s (Event.modeClick "spectrogram") = s := by
    show (modeClick host s "spectrogram").state = s
    rw [modeClick_spectrogram]
    rfl
  refine ⟨modeClick_spectrogram host s, ?_, ?_, ?_, ?_, reachable_animationMode host s⟩
  · intro h sig
    rw [hsame]
  · intro h sig hmem hmode
    exact frameCallback_waveform s h sig hmem hmode
  · intro h sig hmem hmode
    exact frameCallback_spectrum s h sig hmem hmode
  · intro h sig hw hsp
    exact frameCallback_other s h sig hw hsp

/-- Witness of C8 as amended: with the loop running in waveform mode the frame
callback of request 1 calls `drawWaveform`. -/
theorem spectrogram_selection_is_ignored_witness :
    (handle demoHost demoPlaying (Event.frame 1 silence)).state.drawCalls =
      demoPlaying.drawCalls ++ ["drawWaveform"] :=
  (spectrogram_selection_is_ignored demoHost demoPlaying).2.2.1 1 silence
    (by rw [demoPlaying_facts.2.1]; simp) demoPlaying_facts.1

/-- C9: selecting spectrogram leaves no residual state.  The click handler
raises nothing and returns the state it was given, so `animationMode`, the
analyser (resolution, smoothing) and the sample buffer are unchanged; whatever
events follow (a click on waveform, frames with given snapshots) lead to the
same state, canvas log included, as without the selection. -/
theorem spectrogram_selection_leaves_no_residue (host : Host) (s : State) :
    modeClick host s "spectrogram" = Outcome.ok s ∧
    (step host s (Event.modeClick "spectrogram")).animationMode = s.animationMode ∧
    (step host s (Event.modeClick "spectrogram")).analyser = s.analyser ∧
    (step host s (Event.modeClick "spectrogram")).dataArray = s.dataArray ∧
    (∀ es : List Event,
      run host s (Event.modeClick "spectrogram" :: Event.modeClick "waveform" :: es) =
        run host s (Event.modeClick "waveform" :: es)) := by
  have hsame : step host s (Event.modeClick "spectrogram") = s := by
    show (modeClick host s "spectrogram").state = s
    rw [modeClick_spectrogram]
    rfl
  refine ⟨modeClick_spectrogram host s, ?_, ?_, ?_, ?_⟩
  · rw [hsame]
  · rw [hsame]
  · rw [hsame]
  · intro es
    simp only [run, List.foldl_cons, hsame]

/-- C10: seek gesture isolation.  The `input` handler of the progress slider
sets `isDragging`.  While `isDragging` is set, a time update (playback at any
position) leaves the value of the slider as it is.  The `change` handler sets
the playback position to the value of the slider and clears `isDragging`, and
the time update that follows it sets the slider to the playback position. -/
theorem seek_gesture_isolation (host : Host) :
    (∀ (s : State) (v : ℚ),
      (step host s (Event.progressInput v)).isDragging = true ∧
      (step host s (Event.progressInput v)).ui.progressValue = v) ∧
    (∀ (s : State) (position : ℚ), s.isDragging = true →
      (step host s (Event.timeupdate position)).ui.progressValue = s.ui.progressValue ∧
      (step host s (Event.timeupdate position)).isDragging = true) ∧
    (∀ (s : State) (sig : Signal) (position : ℚ),
      (step host s (Event.progressChange sig)).currentTime = s.ui.progressValue ∧
      (step host s (Event.progressChange sig)).isDragging = false ∧
      (step host (step host s (Event.progressChange sig))
        (Event.timeupdate position)).ui.progressValue = position ∧
      (step host (step host s (Event.progressChange sig))
        (Event.timeupdate position)).currentTime = position) := by
  refine ⟨?_, ?_, ?_⟩
  · intro s v
    exact ⟨rfl, rfl⟩
  · intro s position hdrag
    simp [step, handle, ontimeupdate, hdrag, Outcome.ok]
  · intro s sig position
    have hfp : ∃ c d l f q k, step host s (Event.progressChange sig) =
        { s with currentTime := s.ui.progressValue, isDragging := false, drawCalls := c,
                 dataArray := d, canvasLog := l, frameId := f, rafQueue := q,
                 rafCounter := k } := by
      simp only [step, handle, progressChange]
      split
      · obtain ⟨c, d, l, h⟩ := draw_footprint
          { s with currentTime := s.ui.progressValue, isDragging := false } sig
        exact ⟨_, _, _, _, _, _, h⟩
      · exact ⟨_, _, _, _, _, _, rfl⟩
    obtain ⟨c, d, l, f, q, k, h⟩ := hfp
    rw [h]
    simp [step, handle, ontimeupdate, Outcome.ok]

/-- Witness of C10: a time update at position 3 during a drag that left the
slider at 7. -/
theorem seek_gesture_isolation_witness :
    (step demoHost { demoState with isDragging := true }
        (Event.timeupdate 3)).ui.progressValue = 7 ∧
    (step demoHost { demoState with isDragging := true }
        (Event.timeupdate 3)).isDragging = true :=
  (seek_gesture_isolation demoHost).2.1 { demoState with isDragging := true } 3 rfl

end SoundScope
